import Mathlib

/-!
Verification of the real-time event delivery core of the Chat2 backend.

The definitions below are a shallow embedding of
`backend/app/longpolling/manager.py` (the `LongPollingManager` class and the
`emit_*_lp` helpers) and of the SSE push path in `backend/app/sse/events.py`
(the `SSEManager` class and the `event_stream` handlers).

Modelling conventions:
* Python `datetime` values are modelled as `Nat` (only their total order and
  equality are used by the code).
* Event ids are `String`s; Python's `>` on `str` is code-point lexicographic
  comparison, which coincides with `String`'s `<` order in Lean.
* A Python `dict` (here always a `defaultdict`) is modelled as a pair of a key
  list (the keys present in the dict) and a total function giving each key's
  value; reading a key absent from the key list yields the default (`[]`),
  and a `defaultdict.__getitem__` on an absent key additionally inserts the
  key with the default value (`dtouch` below).
* A Python `set` is modelled as a duplicate-free list; iteration over a set
  touches each element exactly once and the loop bodies in the source are
  order-independent, so the net effect is expressed pointwise.
* `asyncio.Future` resolution state is explicit (`FutState`); `set_result`
  calls are counted so that "resolved exactly once" is expressible.
* Suspension and interleaving are modelled by sequencing the atomic sections
  of the source (the sections that hold `self._lock`) explicitly.
-/

namespace Chat2

/-- `EventType` from `longpolling/manager.py`. -/
inductive EventType where
  | message_created
  | message_updated
  | message_deleted
  | user_status_changed
  | typing_indicator
  | server_member_joined
  | server_member_left
  | channel_created
  | channel_updated
  | channel_deleted
deriving DecidableEq, Repr

/-- The `Event` dataclass from `longpolling/manager.py`.  `data` is the opaque
payload (modelled as a `String`), `timestamp` abstracts the `datetime`. -/
structure Event where
  id : String
  type : EventType
  data : String
  timestamp : Nat
  user_id : Option String := none
  channel_id : Option String := none
  server_id : Option String := none
deriving DecidableEq, Repr

/-- Python truthiness of an `Optional[str]`: `None` and `""` are falsy. -/
def optTruthy : Option String → Bool
  | none => false
  | some s => !(s == "")

/-- Python truthiness of an `Optional[List[str]]`: `None` and `[]` are falsy. -/
def optListTruthy : Option (List String) → Bool
  | none => false
  | some l => !l.isEmpty

/-- Read a key from a dict modelled as key list + value function: an absent
key yields the `defaultdict` default `[]`. -/
def dlookup (keys : List String) (m : String → List α) (k : String) : List α :=
  if k ∈ keys then m k else []

/-- Insert a key into a dict's key list (no-op when present). -/
def dinsert (keys : List String) (k : String) : List String :=
  if k ∈ keys then keys else keys ++ [k]

/-- Python `set.add` on a set modelled as a duplicate-free list. -/
def sadd (l : List Nat) (x : Nat) : List Nat :=
  if x ∈ l then l else l ++ [x]

/-- `collections.deque(maxlen=cap).append`: append and drop from the left
down to `cap` entries. -/
def dequeAppend (cap : Nat) (buf : List Event) (e : Event) : List Event :=
  let b := buf ++ [e]
  b.drop (b.length - cap)

/-- The resolution state of an `asyncio.Future` used as a waiter. -/
inductive FutState where
  | pending
  | resolved (evs : List Event)
  | cancelled
deriving DecidableEq, Repr

/-- All waiter futures: their state and the number of `set_result` calls each
has received. -/
structure Futures where
  st : Nat → FutState
  setCount : Nat → Nat

/-- One subject axis of `LongPollingManager`: its per-key event deques
(`user_events` / `channel_events` / `server_events`) and its per-key waiter
sets (`user_connections` / `channel_connections` / `server_connections`). -/
structure Axis where
  evKeys : List String
  evs : String → List Event
  connKeys : List String
  conns : String → List Nat

/-- The `LongPollingManager` state. -/
structure LPState where
  user : Axis
  chan : Axis
  serv : Axis
  fs : Futures

def emptyAxis : Axis :=
  { evKeys := [], evs := fun _ => [], connKeys := [], conns := fun _ => [] }

/-- A freshly constructed `LongPollingManager` (all futures pending and
unused). -/
def emptyLP : LPState :=
  { user := emptyAxis, chan := emptyAxis, serv := emptyAxis,
    fs := { st := fun _ => .pending, setCount := fun _ => 0 } }

/-- `LongPollingManager._notify_connections(connections, event)`: every
pending future in the set receives `set_result([event])` and is removed from
the set; futures that were already done are skipped and left in the set.
The loop touches each element of the (duplicate-free) set once and each
iteration only reads and writes that element's own future, so the effect is
order-independent and expressed pointwise. -/
def notifyConnections (conns : List Nat) (fs : Futures) (e : Event) :
    List Nat × Futures :=
  (conns.filter (fun f => fs.st f ≠ FutState.pending),
   { st := fun f =>
       if f ∈ conns ∧ fs.st f = FutState.pending then .resolved [e] else fs.st f,
     setCount := fun f =>
       if f ∈ conns ∧ fs.st f = FutState.pending then fs.setCount f + 1
       else fs.setCount f })

/-- One `if event.xxx_id:` block of `LongPollingManager.add_event`: append the
event to that subject's deque (a `defaultdict` access that creates the bucket)
and notify that subject's waiter set (also a `defaultdict` access). -/
def publishAxis (a : Axis) (fs : Futures) (key : Option String) (e : Event) :
    Axis × Futures :=
  if optTruthy key then
    let k := key.getD ""
    let (conns', fs') := notifyConnections (dlookup a.connKeys a.conns k) fs e
    ({ evKeys := dinsert a.evKeys k,
       evs := Function.update a.evs k (dequeAppend 100 (dlookup a.evKeys a.evs k) e),
       connKeys := dinsert a.connKeys k,
       conns := Function.update a.conns k conns' }, fs')
  else (a, fs)

/-- `LongPollingManager.add_event(event)`: under the lock, for each truthy
subject id of the event, append to that subject's deque and wake that
subject's waiters (user axis first, then channel, then server). -/
def addEvent (s : LPState) (e : Event) : LPState :=
  let (u, fs1) := publishAxis s.user s.fs e.user_id e
  let (c, fs2) := publishAxis s.chan fs1 e.channel_id e
  let (v, fs3) := publishAxis s.serv fs2 e.server_id e
  { user := u, chan := c, serv := v, fs := fs3 }

/-- Python `<` on `str`, on the underlying character lists: code-point
lexicographic order (a strict prefix is smaller). -/
def pyStrLtChars : List Char → List Char → Bool
  | [], [] => false
  | [], _ :: _ => true
  | _ :: _, [] => false
  | a :: as, b :: bs =>
      if a.toNat < b.toNat then true
      else if a.toNat = b.toNat then pyStrLtChars as bs
      else false

/-- Python `a < b` on `str` (so `event.id > last_event_id` is
`pyStrLt last_event_id event.id`). -/
def pyStrLt (a b : String) : Bool := pyStrLtChars a.data b.data

/-- The user-events loop of `_get_missed_events`: collect the events of the
caller's own buffer whose id is (strictly, lexicographically) above the
cursor; no deduplication check in this first loop. -/
def userCollect (lastId : String) (buf : List Event) : List Event :=
  buf.foldl (fun acc e => if pyStrLt lastId e.id then acc ++ [e] else acc) []

/-- One channel/server loop body of `_get_missed_events`: collect the events
of one buffer whose id is above the cursor and that are not already in the
accumulated list (`event not in missed_events`). -/
def dedupCollect (lastId : String) (acc : List Event) (buf : List Event) :
    List Event :=
  buf.foldl (fun acc e => if pyStrLt lastId e.id ∧ e ∉ acc then acc ++ [e] else acc) acc

/-- The `defaultdict` access `self.xxx_events[k]` performed by a read: absent
keys are inserted with an empty deque. -/
def touchEvKey (a : Axis) (k : String) : Axis :=
  { a with evKeys := dinsert a.evKeys k,
           evs := if k ∈ a.evKeys then a.evs else Function.update a.evs k [] }

/-- The channels (or servers) loop of `_get_missed_events`: fold over the
requested keys, touching each bucket and collecting with deduplication. -/
def axisCollect (lastId : String) (a : Axis) (ks : List String)
    (acc : List Event) : Axis × List Event :=
  ks.foldl
    (fun p k => (touchEvKey p.1 k, dedupCollect lastId p.2 (dlookup p.1.evKeys p.1.evs k)))
    (a, acc)

/-- Insert an event into a timestamp-sorted list, after every event of equal
or smaller timestamp. -/
def insertTs (e : Event) : List Event → List Event
  | [] => [e]
  | x :: xs => if x.timestamp ≤ e.timestamp then x :: insertTs e xs else e :: x :: xs

/-- `missed_events.sort(key=lambda e: e.timestamp)`: a stable ascending sort
by timestamp.  Any two stable sorts on the same key agree extensionally, so
stable insertion sort is a faithful model of Python's stable `list.sort`. -/
def sortByTimestamp (l : List Event) : List Event :=
  l.foldl (fun acc e => insertTs e acc) []

/-- `LongPollingManager._get_missed_events(user_id, last_event_id, channels,
servers)`: with a falsy cursor (Python `None` or `""`) return `[]`; otherwise
scan the caller's user buffer, then each requested channel buffer, then each
requested server buffer, deduplicating, and finally sort by `timestamp`
(`missed_events.sort(key=lambda e: e.timestamp)`, a stable sort).  Returns
the events together with the state as mutated by the `defaultdict` reads. -/
def getMissedEvents (s : LPState) (uid : String) (lastId : Option String)
    (channels servers : Option (List String)) : List Event × LPState :=
  if !optTruthy lastId then ([], s)
  else
    let lid := lastId.getD ""
    let user' := touchEvKey s.user uid
    let acc0 := userCollect lid (dlookup s.user.evKeys s.user.evs uid)
    let (chan', acc1) :=
      if optListTruthy channels then axisCollect lid s.chan (channels.getD []) acc0
      else (s.chan, acc0)
    let (serv', acc2) :=
      if optListTruthy servers then axisCollect lid s.serv (servers.getD []) acc1
      else (s.serv, acc1)
    (sortByTimestamp acc2,
     { s with user := user', chan := chan', serv := serv' })

/-- `self.xxx_connections[k].add(future)`: `defaultdict` access (creates the
bucket) followed by `set.add`. -/
def connAdd (a : Axis) (k : String) (f : Nat) : Axis :=
  { a with connKeys := dinsert a.connKeys k,
           conns := Function.update a.conns k (sadd (dlookup a.connKeys a.conns k) f) }

/-- `self.xxx_connections[k].discard(future)`: `defaultdict` access (creates
the bucket) followed by `set.discard`. -/
def connDiscard (a : Axis) (k : String) (f : Nat) : Axis :=
  { a with connKeys := dinsert a.connKeys k,
           conns := Function.update a.conns k
             ((dlookup a.connKeys a.conns k).filter (fun g => g ≠ f)) }

/-- Fold a per-key connection operation over a requested key list, guarded by
Python truthiness of the optional list (`if channels:`). -/
def connFold (op : Axis → String → Nat → Axis) (a : Axis)
    (ks : Option (List String)) (f : Nat) : Axis :=
  if optListTruthy ks then (ks.getD []).foldl (fun a k => op a k f) a else a

/-- The registration critical section of `wait_for_events` (second
`async with self._lock` block): add the future to the caller's user key and
to every requested channel and server key. -/
def registerPhase (s : LPState) (uid : String)
    (channels servers : Option (List String)) (f : Nat) : LPState :=
  { s with user := connAdd s.user uid f,
           chan := connFold connAdd s.chan channels f,
           serv := connFold connAdd s.serv servers f }

/-- The `finally` critical section of `wait_for_events`: discard the future
from the caller's user key and every requested channel and server key, then
cancel the future if it is not yet done. -/
def deregPhase (s : LPState) (uid : String)
    (channels servers : Option (List String)) (f : Nat) : LPState :=
  { user := connDiscard s.user uid f,
    chan := connFold connDiscard s.chan channels f,
    serv := connFold connDiscard s.serv servers f,
    fs := if s.fs.st f = FutState.pending then
            { s.fs with st := Function.update s.fs.st f .cancelled }
          else s.fs }

/-- How a suspended `wait_for_events` call terminates: a publish occurs during
the wait, the `asyncio.wait_for` timer elapses, or the caller is cancelled. -/
inductive WaitOutcome where
  | publish (e : Event)
  | timeout
  | cancel

/-- `LongPollingManager.wait_for_events(user_id, last_event_id, timeout,
channels, servers)` as a state transformer.  The fresh future is `f`; `oc`
is the environment's choice of how the suspension ends.  The result is
`some events` on normal return (a replay hit, a resolving publish, or the
timeout's `[]`) and `none` when the caller is cancelled
(`asyncio.CancelledError` propagates; the `finally` block still runs). -/
def waitForEvents (s : LPState) (uid : String) (lastId : Option String)
    (channels servers : Option (List String)) (f : Nat) (oc : WaitOutcome) :
    Option (List Event) × LPState :=
  let (missed, s1) := getMissedEvents s uid lastId channels servers
  if missed ≠ [] then (some missed, s1)
  else
    let s2 := registerPhase s1 uid channels servers f
    match oc with
    | .publish e =>
        let s3 := addEvent s2 e
        match s3.fs.st f with
        | .resolved evs => (some evs, deregPhase s3 uid channels servers f)
        | _ => (some [], deregPhase s3 uid channels servers f)
    | .timeout => (some [], deregPhase s2 uid channels servers f)
    | .cancel => (none, deregPhase s2 uid channels servers f)

/-- The interleaving permitted by the source because `self._lock` is released
between the replay-check section (manager.py lines 110-117) and the
registration section (lines 124-133): a concurrent `add_event` runs in that
gap.  The waiter then suspends and, with no further publish, times out. -/
def racedWait (s : LPState) (uid : String) (lastId : Option String)
    (channels servers : Option (List String)) (f : Nat) (e : Event) :
    Option (List Event) × LPState :=
  let (missed, s1) := getMissedEvents s uid lastId channels servers
  if missed ≠ [] then (some missed, s1)
  else
    let s2 := addEvent s1 e
    let s3 := registerPhase s2 uid channels servers f
    match s3.fs.st f with
    | .resolved evs => (some evs, deregPhase s3 uid channels servers f)
    | _ => (some [], deregPhase s3 uid channels servers f)

/-- One axis of `LongPollingManager.cleanup_old_events`: for every key in the
dict, pop aged events from the left (`while events and events[0].timestamp <
cutoff_time: events.popleft()`) and delete the key if its deque is empty. -/
def cleanupAxis (cutoff : Nat) (a : Axis) : Axis :=
  { a with
    evKeys := a.evKeys.filter
      (fun k => !((a.evs k).dropWhile (fun e => e.timestamp < cutoff)).isEmpty),
    evs := fun k => (a.evs k).dropWhile (fun e => e.timestamp < cutoff) }

/-- `LongPollingManager.cleanup_old_events(max_age_hours)` with the computed
cutoff time passed explicitly. -/
def cleanupOldEvents (s : LPState) (cutoff : Nat) : LPState :=
  { s with user := cleanupAxis cutoff s.user,
           chan := cleanupAxis cutoff s.chan,
           serv := cleanupAxis cutoff s.serv }

/-- `sum(len(v) for v in d.values())` over a dict modelled as key list +
value function. -/
def statsCount (keys : List String) (vals : String → List α) : Nat :=
  (keys.map (fun k => (vals k).length)).sum

/-- The `active_*_connections` triple of `LongPollingManager.get_stats`. -/
def activeConnectionTotals (s : LPState) : Nat × Nat × Nat :=
  (statsCount s.user.connKeys s.user.conns,
   statsCount s.chan.connKeys s.chan.conns,
   statsCount s.serv.connKeys s.serv.conns)

/-- The `total_*_events` triple of `LongPollingManager.get_stats`. -/
def totalEventCounts (s : LPState) : Nat × Nat × Nat :=
  (statsCount s.user.evKeys s.user.evs,
   statsCount s.chan.evKeys s.chan.evs,
   statsCount s.serv.evKeys s.serv.evs)

/-- The wire event record built by the `SSEManager.broadcast_to_*` methods
(`type`, `data`, iso `timestamp`). -/
structure SSEEvent where
  type : String
  data : String
  timestamp : Nat
deriving DecidableEq, Repr

/-- The `SSEManager` state restricted to what the claims need: the per-channel
sets of subscribed queues and the contents of each delivery queue.  Each
queue is an `asyncio.Queue()` constructed with no `maxsize` in
`event_stream.event_generator` (sse/events.py), hence unbounded. -/
structure SSEState where
  chanConnKeys : List String
  chanConns : String → List Nat
  queues : Nat → List SSEEvent

/-- `SSEManager.broadcast_to_channel(channel_id, event_type, data)`: when the
channel key is present, `put` the event on every subscribed queue.  `put` on
an unbounded queue appends and never raises, so `dead_queues` stays empty and
no queue is deregistered. -/
def broadcastToChannel (s : SSEState) (cid ty d : String) (now : Nat) :
    SSEState :=
  if cid ∈ s.chanConnKeys then
    { s with queues := fun q =>
        if q ∈ dlookup s.chanConnKeys s.chanConns cid
        then s.queues q ++ [⟨ty, d, now⟩] else s.queues q }
  else s

/-- The combined real-time state: the long-polling manager and the SSE
manager are two separate module-level singletons. -/
structure RTState where
  lp : LPState
  sse : SSEState

/-- A publish through the long-polling manager (`add_event`): it appends to
the replay deques and wakes waiter futures, and does not touch the SSE
manager's queues. -/
def publishLP (s : RTState) (e : Event) : RTState :=
  { s with lp := addEvent s.lp e }

/-- `emit_message_created_lp(message_data)` from `longpolling/manager.py`:
builds an `Event` whose id is a fresh `nanoid.generate()` output (passed here
explicitly as `genId`) and whose subjects are the message's channel and
server; then hands it to `add_event`. -/
def emitMessageCreatedLP (genId : String) (now : Nat)
    (channelId serverId : Option String) (payload : String) : Event :=
  { id := genId, type := .message_created, data := payload, timestamp := now,
    user_id := none, channel_id := channelId, server_id := serverId }

/-- The list of keys a `connFold` actually iterates over: the requested keys
when the optional list is Python-truthy, nothing otherwise. -/
def selKeys (ks : Option (List String)) : List String :=
  if optListTruthy ks then ks.getD [] else []

/-- The life of one axis's connection registry across a suspended
`wait_for_events` call: registration of the fresh future under the selected
keys, at most one interleaved `add_event` notification on this axis (`pk` is
the event's subject id for this axis, `none` when no publish occurs), and
the `finally` deregistration from the same selected keys. -/
def axisRound (a : Axis) (S : List String) (f : Nat) (pk : Option String)
    (e : Event) (fsN : Futures) : Axis :=
  S.foldl (fun a k => connDiscard a k f)
    ((publishAxis (S.foldl (fun a k => connAdd a k f) a) fsN pk e).1)

/-! Concrete scenario states used by the counterexample and witness
theorems.  All are built from the empty manager through the embedded public
operations, so they are reachable states of the source program. -/

/-- A channel event whose nanoid-generated id starts with a late letter but
which is published first (timestamp 1). -/
def evB : Event :=
  { id := "bAAAAAAAAAAAAAAAAAAAA", type := .message_created, data := "m1",
    timestamp := 1, channel_id := some "c1" }

/-- A channel event whose nanoid-generated id starts with an early letter but
which is published second (timestamp 2). -/
def evA : Event :=
  { id := "aAAAAAAAAAAAAAAAAAAAA", type := .message_created, data := "m2",
    timestamp := 2, channel_id := some "c1" }

/-- The manager state after publishing `evB` then `evA` to channel `c1`. -/
def sBA : LPState := addEvent (addEvent emptyLP evB) evA

/-- The event published in the lost-wakeup interleaving of `racedWait`. -/
def eRace : Event :=
  { id := "a1AAAAAAAAAAAAAAAAAAA", type := .message_created, data := "m",
    timestamp := 5, channel_id := some "c1" }

/-- An event built by `emit_message_created_lp` from a first `generate()`
output (starting with a late code point). -/
def evFirst : Event := emitMessageCreatedLP "VaaaaaaaaaaaaaaaaaaaA" 10 (some "c1") none "m1"

/-- An event built by `emit_message_created_lp` from a second `generate()`
output (starting with an early code point). -/
def evSecond : Event := emitMessageCreatedLP "AaaaaaaaaaaaaaaaaaaaB" 11 (some "c1") none "m2"

/-- The manager state after publishing `evFirst` then `evSecond`. -/
def sOrder : LPState := addEvent (addEvent emptyLP evFirst) evSecond

/-- An SSE manager with one open stream (queue `0`), subscribed to channel
`c1`, whose delivery queue is empty. -/
def sse0 : SSEState :=
  { chanConnKeys := ["c1"],
    chanConns := fun k => if k = "c1" then [0] else [],
    queues := fun _ => [] }

/-- The combined real-time state with a fresh long-polling manager and the
one-sink SSE manager. -/
def rt0 : RTState := { lp := emptyLP, sse := sse0 }

/-- `n` successive `broadcast_to_channel` publishes to channel `c1` with no
intervening dequeue by the stream consumer (a slow consumer). -/
def broadcastRepeat : Nat → SSEState → SSEState
  | 0, s => s
  | n + 1, s => broadcastRepeat n (broadcastToChannel s "c1" "message_created" "m" 0)

/-- The `i`-th event of the bounded-history scenario: ids `"a0"`, `"a1"`, …
(all above the cursor `"0"`), timestamps in publish order. -/
def mkEv (i : Nat) : Event :=
  { id := "a" ++ toString i, type := .message_created, data := "",
    timestamp := i, channel_id := some "c1" }

/-- The 101 events published to channel `c1` in the bounded-history
scenario (capacity is 100). -/
def pubList : List Event := (List.range 101).map mkEv

/-- The manager state after publishing all 101 events. -/
def s101 : LPState := pubList.foldl addEvent emptyLP

/-- A manager with one waiter (future `7`) registered by user `u1` for
channel `c1`. -/
def sWait : LPState := registerPhase emptyLP "u1" (some ["c1"]) none 7

/-- A manager with two waiters (futures `1` and `2`, for users `uA` and
`uB`) both registered for channel `c1`. -/
def sWait2 : LPState :=
  registerPhase (registerPhase emptyLP "uA" (some ["c1"]) none 1) "uB" (some ["c1"]) none 2

/-- An event addressed to both user `u1` and channel `c1`. -/
def eBoth : Event :=
  { id := "eB00000000000000000000", type := .message_created, data := "d",
    timestamp := 3, user_id := some "u1", channel_id := some "c1" }

/-- An event addressed to channel `c1` only. -/
def eChanOnly : Event :=
  { id := "eC00000000000000000000", type := .message_created, data := "d",
    timestamp := 4, channel_id := some "c1" }

/-! ## Theorems -/

set_option maxRecDepth 100000

/-- Claim C1, counterexample: replaying channel `c1` of `sBA` with cursor
`"0"` returns `[evB, evA]` — the two buffered matching events in timestamp
order — whose id sequence is not ascending, because `_get_missed_events`
sorts by wall-clock timestamp, not by id. -/
theorem claim_C1_cex :
    (getMissedEvents sBA "u" (some "0") (some ["c1"]) none).1 = [evB, evA] ∧
    pyStrLt evA.id evB.id = true ∧ evA ≠ evB ∧
    pyStrLt evB.id evA.id = false := by
  refine ⟨by decide, by decide, by decide, by decide⟩

/-- Claim C2 (code bug): the lost-wakeup interleaving.  `self._lock` is
released between the replay-check section and the registration section of
`wait_for_events`, so a concurrent `add_event` can run in the gap.  In that
execution the replay check returns nothing, the freshly registered waiter is
never resolved, the call times out with `[]` — yet the event matches the
filter (`channel c1`, id above the cursor) and sits in the replay buffer. -/
theorem claim_C2 :
    (racedWait emptyLP "u" (some "0") (some ["c1"]) none 7 eRace).1 = some [] ∧
    eRace ∈ (racedWait emptyLP "u" (some "0") (some ["c1"]) none 7 eRace).2.chan.evs "c1" ∧
    pyStrLt "0" eRace.id = true ∧
    (getMissedEvents emptyLP "u" (some "0") (some ["c1"]) none).1 = [] := by
  refine ⟨by decide, by decide, by decide, by decide⟩

/-- Claim C3, counterexample: with buffered history present in channel `c1`,
`_get_missed_events` with an absent cursor returns `[]` (not the buffered
history), and the full call suspends and times out with `[]`. -/
theorem claim_C3_cex :
    (getMissedEvents sBA "u" none (some ["c1"]) none).1 = [] ∧
    evA ∈ sBA.chan.evs "c1" ∧
    (waitForEvents sBA "u" none (some ["c1"]) none 3 .timeout).1 = some [] := by
  refine ⟨by decide, by decide, by decide⟩

/-- Claim C3 (amended): when the cursor is absent — Python-falsy: `None` or
`""` — the replay query returns the empty list regardless of the buffered
history, so the call registers a waiter and suspends (here: until the
timeout, which yields `[]`). -/
theorem claim_C3 (s : LPState) (uid : String) (lastId : Option String)
    (channels servers : Option (List String)) (f : Nat)
    (h : optTruthy lastId = false) :
    getMissedEvents s uid lastId channels servers = ([], s) ∧
    (waitForEvents s uid lastId channels servers f .timeout).1 = some [] := by
  constructor
  · unfold getMissedEvents
    simp [h]
  · unfold waitForEvents getMissedEvents
    simp [h]

/-- Claim C3, witness: the amended statement applied to the concrete state
`sBA` with cursor `none`. -/
theorem claim_C3_witness :
    getMissedEvents sBA "u" none (some ["c1"]) none = ([], sBA) ∧
    (waitForEvents sBA "u" none (some ["c1"]) none 3 .timeout).1 = some [] :=
  claim_C3 sBA "u" none (some ["c1"]) none 3 (by decide)

/-- Claim C5, counterexample: `evFirst` is published strictly before
`evSecond` (the buffer is a FIFO, so publish order is buffer order), but its
nanoid-generated id is not below `evSecond`'s: ids are random strings, not
strictly increasing in publish order. -/
theorem claim_C5_cex :
    sOrder.chan.evs "c1" = [evFirst, evSecond] ∧
    pyStrLt evFirst.id evSecond.id = false ∧
    evFirst ≠ evSecond := by
  refine ⟨by decide, by decide, by decide⟩

/-- Claim C5 (amended): an event's id is exactly the `nanoid.generate()`
output supplied at publish time — an opaque random string.  Distinct
generator outputs give distinct events (so ids remain a sound deduplication
key), but publish order induces no order on ids. -/
theorem claim_C5 (g1 g2 : String) (t1 t2 : Nat) (c1 c2 v1 v2 : Option String)
    (p1 p2 : String) (h : g1 ≠ g2) :
    (emitMessageCreatedLP g1 t1 c1 v1 p1).id = g1 ∧
    (emitMessageCreatedLP g2 t2 c2 v2 p2).id = g2 ∧
    emitMessageCreatedLP g1 t1 c1 v1 p1 ≠ emitMessageCreatedLP g2 t2 c2 v2 p2 := by
  refine ⟨rfl, rfl, ?_⟩
  intro hc
  exact h (congrArg Event.id hc)

/-- Claim C5, witness: the amended statement at the two concrete generator
outputs of the scenario. -/
theorem claim_C5_witness :
    (emitMessageCreatedLP "VaaaaaaaaaaaaaaaaaaaA" 10 (some "c1") none "m1").id
      = "VaaaaaaaaaaaaaaaaaaaA" ∧
    (emitMessageCreatedLP "AaaaaaaaaaaaaaaaaaaaB" 11 (some "c1") none "m2").id
      = "AaaaaaaaaaaaaaaaaaaaB" ∧
    emitMessageCreatedLP "VaaaaaaaaaaaaaaaaaaaA" 10 (some "c1") none "m1"
      ≠ emitMessageCreatedLP "AaaaaaaaaaaaaaaaaaaaB" 11 (some "c1") none "m2" :=
  claim_C5 "VaaaaaaaaaaaaaaaaaaaA" "AaaaaaaaaaaaaaaaaaaaB" 10 11
    (some "c1") (some "c1") none none "m1" "m2" (by decide)

/-- Claim C8, counterexample: a completed `wait_for_events` call (cursor
`"x"`, no matching history, timeout) leaves the queried user's bucket in
`user_events` as a dangling empty entry, created by the `defaultdict`
access in `_get_missed_events`. -/
theorem claim_C8_cex :
    "u" ∈ (waitForEvents emptyLP "u" (some "x") none none 0 .timeout).2.user.evKeys ∧
    (waitForEvents emptyLP "u" (some "x") none none 0 .timeout).2.user.evs "u" = [] := by
  refine ⟨by decide, by decide⟩

/-- Claim C8 (amended): immediately after `cleanup_old_events`, no dangling
empty buckets exist: every subject key still present in any of the three
event registries has a nonempty replay buffer.  (The invariant does not hold
in every reachable state, because `_get_missed_events`' `defaultdict`
accesses create empty buckets for queried subjects.) -/
theorem claim_C8 (s : LPState) (cutoff : Nat) (k : String) :
    (k ∈ (cleanupOldEvents s cutoff).user.evKeys →
       (cleanupOldEvents s cutoff).user.evs k ≠ []) ∧
    (k ∈ (cleanupOldEvents s cutoff).chan.evKeys →
       (cleanupOldEvents s cutoff).chan.evs k ≠ []) ∧
    (k ∈ (cleanupOldEvents s cutoff).serv.evKeys →
       (cleanupOldEvents s cutoff).serv.evs k ≠ []) := by
  refine ⟨?_, ?_, ?_⟩ <;>
  · intro hk
    simp only [cleanupOldEvents, cleanupAxis, List.mem_filter] at hk ⊢
    obtain ⟨-, hne⟩ := hk
    simpa [List.isEmpty_iff] using hne

/-- Claim C8, witness: after cleaning `sBA` with cutoff `0`, channel `c1`
is still present and its buffer is nonempty. -/
theorem claim_C8_witness :
    (cleanupOldEvents sBA 0).chan.evs "c1" ≠ [] :=
  (claim_C8 sBA 0 "c1").2.1 (by decide)

theorem broadcastToChannel_chanConnKeys (s : SSEState) (cid ty d : String)
    (t : Nat) : (broadcastToChannel s cid ty d t).chanConnKeys = s.chanConnKeys := by
  unfold broadcastToChannel; split <;> rfl

theorem broadcastToChannel_chanConns (s : SSEState) (cid ty d : String)
    (t : Nat) : (broadcastToChannel s cid ty d t).chanConns = s.chanConns := by
  unfold broadcastToChannel; split <;> rfl

theorem broadcastToChannel_queues (s : SSEState) (cid ty d : String) (t : Nat)
    (q : Nat) (h1 : cid ∈ s.chanConnKeys)
    (h2 : q ∈ dlookup s.chanConnKeys s.chanConns cid) :
    (broadcastToChannel s cid ty d t).queues q = s.queues q ++ [⟨ty, d, t⟩] := by
  unfold broadcastToChannel
  simp [h1, h2]

theorem broadcastRepeat_len (n : Nat) (s : SSEState)
    (h1 : "c1" ∈ s.chanConnKeys)
    (h2 : 0 ∈ dlookup s.chanConnKeys s.chanConns "c1") :
    ((broadcastRepeat n s).queues 0).length = (s.queues 0).length + n := by
  induction n generalizing s with
  | zero => rfl
  | succ n ih =>
      rw [broadcastRepeat]
      rw [ih _ (by rwa [broadcastToChannel_chanConnKeys])
            (by rwa [broadcastToChannel_chanConns, broadcastToChannel_chanConnKeys]),
          broadcastToChannel_queues _ _ _ _ _ _ h1 h2]
      simp
      omega

/-- Claim C9, counterexample: there is no fixed capacity bounding a sink's
delivery queue across reachable states — with a registered sink and a slow
consumer, `n` broadcasts leave `n` events queued, for every `n`. -/
theorem claim_C9_cex :
    ¬ ∃ cap : Nat, ∀ n : Nat, ((broadcastRepeat n sse0).queues 0).length ≤ cap := by
  rintro ⟨cap, h⟩
  have hb := broadcastRepeat_len (cap + 1) sse0 (by decide) (by decide)
  have := h (cap + 1)
  rw [hb] at this
  simp [sse0] at this

/-- Claim C9 (amended): sink delivery queues are unbounded `asyncio.Queue`
instances with no overflow policy: a broadcast to a subscribed channel
appends to every registered sink queue (nothing is ever dropped — `put` on
an unbounded queue cannot raise, so the dead-queue cleanup never fires), and
`n` broadcasts under a slow consumer leave `n` queued events. -/
theorem claim_C9 :
    (∀ (s : SSEState) (cid ty d : String) (t q : Nat),
       cid ∈ s.chanConnKeys → q ∈ dlookup s.chanConnKeys s.chanConns cid →
       (broadcastToChannel s cid ty d t).queues q = s.queues q ++ [⟨ty, d, t⟩]) ∧
    (∀ n : Nat, ((broadcastRepeat n sse0).queues 0).length = n) := by
  constructor
  · intro s cid ty d t q h1 h2
    exact broadcastToChannel_queues s cid ty d t q h1 h2
  · intro n
    rw [broadcastRepeat_len n sse0 (by decide) (by decide)]
    simp [sse0]

/-- Claim C9, witness: the growth law applied at the concrete one-sink SSE
state and `n = 3`. -/
theorem claim_C9_witness :
    (broadcastToChannel sse0 "c1" "message_created" "m" 0).queues 0
      = sse0.queues 0 ++ [⟨"message_created", "m", 0⟩] ∧
    ((broadcastRepeat 3 sse0).queues 0).length = 3 :=
  ⟨claim_C9.1 sse0 "c1" "message_created" "m" 0 0 (by decide) (by decide),
   claim_C9.2 3⟩

theorem publishAxis_st (a : Axis) (fs : Futures) (key : Option String)
    (e : Event) (f : Nat) :
    ((publishAxis a fs key e).2).st f =
      if optTruthy key ∧ f ∈ dlookup a.connKeys a.conns (key.getD "") ∧
         fs.st f = FutState.pending
      then .resolved [e] else fs.st f := by
  by_cases h : optTruthy key
  · simp [publishAxis, notifyConnections, h, and_assoc]
  · simp [publishAxis, h]

theorem publishAxis_setCount (a : Axis) (fs : Futures) (key : Option String)
    (e : Event) (f : Nat) :
    ((publishAxis a fs key e).2).setCount f =
      if optTruthy key ∧ f ∈ dlookup a.connKeys a.conns (key.getD "") ∧
         fs.st f = FutState.pending
      then fs.setCount f + 1 else fs.setCount f := by
  by_cases h : optTruthy key
  · simp [publishAxis, notifyConnections, h, and_assoc]
  · simp [publishAxis, h]

theorem publishAxis_st_stable (a : Axis) (fs : Futures) (key : Option String)
    (e : Event) (f : Nat) (h : fs.st f ≠ FutState.pending) :
    ((publishAxis a fs key e).2).st f = fs.st f := by
  rw [publishAxis_st]
  simp [h]

theorem publishAxis_setCount_stable (a : Axis) (fs : Futures)
    (key : Option String) (e : Event) (f : Nat)
    (h : fs.st f ≠ FutState.pending) :
    ((publishAxis a fs key e).2).setCount f = fs.setCount f := by
  rw [publishAxis_setCount]
  simp [h]

theorem addEvent_fs (s : LPState) (e : Event) :
    (addEvent s e).fs =
      (publishAxis s.serv
        (publishAxis s.chan
          (publishAxis s.user s.fs e.user_id e).2 e.channel_id e).2
        e.server_id e).2 := rfl

/-- Claim C6, counterexample: a publish through `add_event` puts the event
into the replay buffer and would wake waiters, but pushes nothing onto the
registered SSE sink's delivery queue for the matching channel key — the SSE
manager is a separate object that `add_event` never touches. -/
theorem claim_C6_cex :
    (publishLP rt0 eRace).sse.queues 0 = [] ∧
    0 ∈ dlookup rt0.sse.chanConnKeys rt0.sse.chanConns "c1" ∧
    eRace.channel_id = some "c1" ∧
    eRace ∈ (publishLP rt0 eRace).lp.chan.evs "c1" := by
  refine ⟨by decide, by decide, by decide, by decide⟩

/-- Claim C6 (amended): `add_event` resolves each matching pending waiter
exactly once with `[event]` — a waiter registered under both its user key
and a matching channel key is resolved a single time (one `set_result`), and
one event matching two distinct waiters resolves both, each exactly once.
Push sinks are not fed by `add_event`; they receive events only through the
separate `SSEManager.broadcast_to_*` calls, which append the event to every
sink queue registered under the targeted key. -/
theorem claim_C6 :
    (∀ (s : LPState) (uid cid : String) (e : Event) (f : Nat),
       e.user_id = some uid → uid ≠ "" → e.channel_id = some cid →
       s.fs.st f = FutState.pending →
       f ∈ dlookup s.user.connKeys s.user.conns uid →
       (addEvent s e).fs.st f = .resolved [e] ∧
       (addEvent s e).fs.setCount f = s.fs.setCount f + 1) ∧
    (∀ (s : LPState) (cid : String) (e : Event) (f1 f2 : Nat),
       e.user_id = none → e.channel_id = some cid → cid ≠ "" →
       s.fs.st f1 = FutState.pending → s.fs.st f2 = FutState.pending →
       f1 ∈ dlookup s.chan.connKeys s.chan.conns cid →
       f2 ∈ dlookup s.chan.connKeys s.chan.conns cid →
       (addEvent s e).fs.st f1 = .resolved [e] ∧
       (addEvent s e).fs.st f2 = .resolved [e] ∧
       (addEvent s e).fs.setCount f1 = s.fs.setCount f1 + 1 ∧
       (addEvent s e).fs.setCount f2 = s.fs.setCount f2 + 1) ∧
    (∀ (s : SSEState) (cid ty d : String) (t q : Nat),
       cid ∈ s.chanConnKeys → q ∈ dlookup s.chanConnKeys s.chanConns cid →
       (broadcastToChannel s cid ty d t).queues q
         = s.queues q ++ [SSEEvent.mk ty d t]) := by
  refine ⟨?_, ?_, ?_⟩
  · intro s uid cid e f hu hu0 hc hp hmem
    have htru : optTruthy e.user_id = true := by
      rw [hu]
      simp [optTruthy, hu0]
    have h1 : ((publishAxis s.user s.fs e.user_id e).2).st f = .resolved [e] := by
      rw [publishAxis_st, hu]
      rw [hu] at htru
      simp [htru, hmem, hp]
    have h1c : ((publishAxis s.user s.fs e.user_id e).2).setCount f
        = s.fs.setCount f + 1 := by
      rw [publishAxis_setCount, hu]
      rw [hu] at htru
      simp [htru, hmem, hp]
    have hnp : ((publishAxis s.user s.fs e.user_id e).2).st f ≠ FutState.pending := by
      rw [h1]; intro hcon; cases hcon
    have h2 : ((publishAxis s.chan (publishAxis s.user s.fs e.user_id e).2
        e.channel_id e).2).st f = .resolved [e] := by
      rw [publishAxis_st_stable _ _ _ _ _ hnp, h1]
    have hnp2 : ((publishAxis s.chan (publishAxis s.user s.fs e.user_id e).2
        e.channel_id e).2).st f ≠ FutState.pending := by
      rw [h2]; intro hcon; cases hcon
    constructor
    · rw [addEvent_fs, publishAxis_st_stable _ _ _ _ _ hnp2, h2]
    · rw [addEvent_fs, publishAxis_setCount_stable _ _ _ _ _ hnp2,
          publishAxis_setCount_stable _ _ _ _ _ hnp, h1c]
  · intro s cid e f1 f2 hu hc hc0 hp1 hp2 hm1 hm2
    have htru : optTruthy (some cid) = true := by
      simp [optTruthy, hc0]
    have hust : (publishAxis s.user s.fs e.user_id e) = (s.user, s.fs) := by
      simp [publishAxis, hu, optTruthy]
    rw [addEvent_fs, hust]
    have h1 : ((publishAxis s.chan s.fs e.channel_id e).2).st f1 = .resolved [e] := by
      rw [publishAxis_st, hc]; simp [htru, hm1, hp1]
    have h2 : ((publishAxis s.chan s.fs e.channel_id e).2).st f2 = .resolved [e] := by
      rw [publishAxis_st, hc]; simp [htru, hm2, hp2]
    have h1c : ((publishAxis s.chan s.fs e.channel_id e).2).setCount f1
        = s.fs.setCount f1 + 1 := by
      rw [publishAxis_setCount, hc]; simp [htru, hm1, hp1]
    have h2c : ((publishAxis s.chan s.fs e.channel_id e).2).setCount f2
        = s.fs.setCount f2 + 1 := by
      rw [publishAxis_setCount, hc]; simp [htru, hm2, hp2]
    have hnp1 : ((publishAxis s.chan s.fs e.channel_id e).2).st f1
        ≠ FutState.pending := by
      rw [h1]; intro hcon; cases hcon
    have hnp2 : ((publishAxis s.chan s.fs e.channel_id e).2).st f2
        ≠ FutState.pending := by
      rw [h2]; intro hcon; cases hcon
    refine ⟨?_, ?_, ?_, ?_⟩
    · rw [publishAxis_st_stable _ _ _ _ _ hnp1, h1]
    · rw [publishAxis_st_stable _ _ _ _ _ hnp2, h2]
    · rw [publishAxis_setCount_stable _ _ _ _ _ hnp1, h1c]
    · rw [publishAxis_setCount_stable _ _ _ _ _ hnp2, h2c]
  · intro s cid ty d t q h1 h2
    exact broadcastToChannel_queues s cid ty d t q h1 h2

/-- Claim C6, witness: the amended statement at the concrete one- and
two-waiter states. -/
theorem claim_C6_witness :
    ((addEvent sWait eBoth).fs.st 7 = .resolved [eBoth] ∧
     (addEvent sWait eBoth).fs.setCount 7 = sWait.fs.setCount 7 + 1) ∧
    ((addEvent sWait2 eChanOnly).fs.st 1 = .resolved [eChanOnly] ∧
     (addEvent sWait2 eChanOnly).fs.st 2 = .resolved [eChanOnly] ∧
     (addEvent sWait2 eChanOnly).fs.setCount 1 = sWait2.fs.setCount 1 + 1 ∧
     (addEvent sWait2 eChanOnly).fs.setCount 2 = sWait2.fs.setCount 2 + 1) ∧
    (broadcastToChannel sse0 "c1" "message_created" "m" 0).queues 0
      = sse0.queues 0 ++ [⟨"message_created", "m", 0⟩] :=
  ⟨claim_C6.1 sWait "u1" "c1" eBoth 7 rfl (by decide) rfl (by decide) (by decide),
   claim_C6.2.1 sWait2 "c1" eChanOnly 1 2 rfl rfl (by decide) (by decide)
     (by decide) (by decide) (by decide),
   claim_C6.2.2 sse0 "c1" "message_created" "m" 0 0 (by decide) (by decide)⟩

theorem mem_insertTs (a e : Event) (l : List Event) :
    a ∈ insertTs e l ↔ a = e ∨ a ∈ l := by
  induction l with
  | nil => simp [insertTs]
  | cons x xs ih =>
      by_cases h : x.timestamp ≤ e.timestamp
      · simp only [insertTs, if_pos h, List.mem_cons, ih]
        tauto
      · simp only [insertTs, if_neg h, List.mem_cons]

theorem insertTs_perm (e : Event) (l : List Event) :
    List.Perm (insertTs e l) (e :: l) := by
  induction l with
  | nil => simp [insertTs]
  | cons x xs ih =>
      by_cases h : x.timestamp ≤ e.timestamp
      · simp only [insertTs, if_pos h]
        exact (ih.cons x).trans (List.Perm.swap e x xs)
      · simp [insertTs, h]

theorem pairwise_insertTs (e : Event) (l : List Event)
    (h : l.Pairwise (fun a b => a.timestamp ≤ b.timestamp)) :
    (insertTs e l).Pairwise (fun a b => a.timestamp ≤ b.timestamp) := by
  induction l with
  | nil => simp [insertTs]
  | cons x xs ih =>
      rcases List.pairwise_cons.mp h with ⟨hx, hxs⟩
      by_cases hle : x.timestamp ≤ e.timestamp
      · simp only [insertTs, if_pos hle]
        refine List.pairwise_cons.mpr ⟨?_, ih hxs⟩
        intro b hb
        rcases (mem_insertTs b e xs).mp hb with hbe | hbx
        · subst hbe; exact hle
        · exact hx b hbx
      · simp only [insertTs, if_neg hle]
        refine List.pairwise_cons.mpr ⟨?_, h⟩
        intro b hb
        rcases List.mem_cons.mp hb with hbx | hbxs
        · subst hbx; exact Nat.le_of_not_le hle
        · exact Nat.le_trans (Nat.le_of_not_le hle) (hx b hbxs)

theorem sortFold_perm (l acc : List Event) :
    List.Perm (l.foldl (fun acc e => insertTs e acc) acc) (acc ++ l) := by
  induction l generalizing acc with
  | nil => simp
  | cons e l ih =>
      have h1 : (e :: l).foldl (fun acc e => insertTs e acc) acc
          = l.foldl (fun acc e => insertTs e acc) (insertTs e acc) := rfl
      rw [h1]
      exact ((ih (insertTs e acc)).trans
        ((insertTs_perm e acc).append_right l)).trans List.perm_middle.symm

theorem sortByTimestamp_perm (l : List Event) :
    List.Perm (sortByTimestamp l) l :=
  sortFold_perm l []

theorem mem_sortByTimestamp (a : Event) (l : List Event) :
    a ∈ sortByTimestamp l ↔ a ∈ l :=
  (sortByTimestamp_perm l).mem_iff

theorem nodup_sortByTimestamp (l : List Event) (h : l.Nodup) :
    (sortByTimestamp l).Nodup :=
  (sortByTimestamp_perm l).nodup_iff.mpr h

theorem pairwise_sortByTimestamp (l : List Event) :
    (sortByTimestamp l).Pairwise (fun a b => a.timestamp ≤ b.timestamp) := by
  have key : ∀ (l acc : List Event),
      acc.Pairwise (fun a b => a.timestamp ≤ b.timestamp) →
      (l.foldl (fun acc e => insertTs e acc) acc).Pairwise
        (fun a b => a.timestamp ≤ b.timestamp) := by
    intro l
    induction l with
    | nil => intro acc h; exact h
    | cons e l ih => intro acc h; exact ih _ (pairwise_insertTs e acc h)
  exact key l [] (by simp)

theorem insertTs_of_ge (e : Event) (l : List Event)
    (h : ∀ x ∈ l, x.timestamp ≤ e.timestamp) : insertTs e l = l ++ [e] := by
  induction l with
  | nil => rfl
  | cons x xs ih =>
      have hx : x.timestamp ≤ e.timestamp := h x (List.mem_cons_self x xs)
      simp only [insertTs, if_pos hx, List.cons_append, List.cons.injEq, true_and]
      exact ih (fun y hy => h y (List.mem_cons_of_mem x hy))

theorem sortFold_of_sorted (l acc : List Event)
    (h : (acc ++ l).Pairwise (fun a b => a.timestamp ≤ b.timestamp)) :
    l.foldl (fun acc e => insertTs e acc) acc = acc ++ l := by
  induction l generalizing acc with
  | nil => simp
  | cons e l ih =>
      have hcross : ∀ x ∈ acc, x.timestamp ≤ e.timestamp := by
        intro x hx
        exact (List.pairwise_append.mp h).2.2 x hx e (List.mem_cons_self e l)
      have hstep : insertTs e acc = acc ++ [e] := insertTs_of_ge e acc hcross
      have hres := ih (acc ++ [e]) (by simpa using h)
      calc (e :: l).foldl (fun acc e => insertTs e acc) acc
          = l.foldl (fun acc e => insertTs e acc) (insertTs e acc) := rfl
        _ = l.foldl (fun acc e => insertTs e acc) (acc ++ [e]) := by rw [hstep]
        _ = (acc ++ [e]) ++ l := hres
        _ = acc ++ e :: l := by simp

theorem sortByTimestamp_of_sorted (l : List Event)
    (h : l.Pairwise (fun a b => a.timestamp ≤ b.timestamp)) :
    sortByTimestamp l = l := by
  have := sortFold_of_sorted l [] (by simpa using h)
  simpa [sortByTimestamp] using this

theorem userCollect_eq_filter (lid : String) (buf : List Event) :
    userCollect lid buf = buf.filter (fun e => pyStrLt lid e.id) := by
  have key : ∀ (buf acc : List Event),
      buf.foldl (fun acc e => if pyStrLt lid e.id then acc ++ [e] else acc) acc
        = acc ++ buf.filter (fun e => pyStrLt lid e.id) := by
    intro buf
    induction buf with
    | nil => intro acc; simp
    | cons b bs ih =>
        intro acc
        by_cases h : pyStrLt lid b.id
        · simp [List.foldl_cons, h, ih, List.filter_cons]
        · simp [List.foldl_cons, h, ih, List.filter_cons]
  simpa using key buf []

theorem mem_dedupCollect (lid : String) (acc buf : List Event) (e : Event) :
    e ∈ dedupCollect lid acc buf ↔
      e ∈ acc ∨ (pyStrLt lid e.id = true ∧ e ∈ buf) := by
  induction buf generalizing acc with
  | nil => simp [dedupCollect]
  | cons b bs ih =>
      have hstep : dedupCollect lid acc (b :: bs)
          = dedupCollect lid
              (if pyStrLt lid b.id ∧ b ∉ acc then acc ++ [b] else acc) bs := rfl
      rw [hstep]
      by_cases hlt : pyStrLt lid b.id = true
      · by_cases hin : b ∈ acc
        · simp only [hlt, hin, not_true_eq_false, and_false, if_false, ih]
          constructor
          · rintro (h | ⟨h1, h2⟩)
            · exact Or.inl h
            · exact Or.inr ⟨h1, List.mem_cons_of_mem b h2⟩
          · rintro (h | ⟨h1, h2⟩)
            · exact Or.inl h
            · rcases List.mem_cons.mp h2 with rfl | h2
              · exact Or.inl hin
              · exact Or.inr ⟨h1, h2⟩
        · simp only [hlt, hin, not_false_eq_true, and_true, true_and, if_true, ih]
          constructor
          · rintro (h | ⟨h1, h2⟩)
            · rcases List.mem_append.mp h with h | h
              · exact Or.inl h
              · have he : e = b := List.mem_singleton.mp h
                subst he
                exact Or.inr ⟨hlt, List.mem_cons_self e bs⟩
            · exact Or.inr ⟨h1, List.mem_cons_of_mem b h2⟩
          · rintro (h | ⟨h1, h2⟩)
            · exact Or.inl (List.mem_append.mpr (Or.inl h))
            · rcases List.mem_cons.mp h2 with rfl | h2
              · exact Or.inl (List.mem_append.mpr (Or.inr (List.mem_singleton.mpr rfl)))
              · exact Or.inr ⟨h1, h2⟩
      · simp only [hlt, false_and, if_false, ih]
        constructor
        · rintro (h | ⟨h1, h2⟩)
          · exact Or.inl h
          · exact Or.inr ⟨h1, List.mem_cons_of_mem b h2⟩
        · rintro (h | ⟨h1, h2⟩)
          · exact Or.inl h
          · rcases List.mem_cons.mp h2 with rfl | h2
            · exact absurd h1 hlt
            · exact Or.inr ⟨h1, h2⟩

theorem nodup_dedupCollect (lid : String) (acc buf : List Event)
    (h : acc.Nodup) : (dedupCollect lid acc buf).Nodup := by
  induction buf generalizing acc with
  | nil => exact h
  | cons b bs ih =>
      have hstep : dedupCollect lid acc (b :: bs)
          = dedupCollect lid
              (if pyStrLt lid b.id ∧ b ∉ acc then acc ++ [b] else acc) bs := rfl
      rw [hstep]
      by_cases hc : pyStrLt lid b.id = true ∧ b ∉ acc
      · rw [if_pos hc]
        refine ih _ ?_
        rw [List.nodup_append]
        refine ⟨h, List.nodup_singleton b, ?_⟩
        intro x hx hxb
        have hxbe : x = b := List.mem_singleton.mp hxb
        subst hxbe
        exact hc.2 hx
      · rw [if_neg hc]
        exact ih _ h

theorem mem_dedupFold (lid : String) (ks : List String)
    (bufs : String → List Event) (acc : List Event) (e : Event) :
    e ∈ ks.foldl (fun acc k => dedupCollect lid acc (bufs k)) acc ↔
      e ∈ acc ∨ (pyStrLt lid e.id = true ∧ ∃ k ∈ ks, e ∈ bufs k) := by
  induction ks generalizing acc with
  | nil => simp
  | cons k ks ih =>
      simp only [List.foldl_cons, ih, mem_dedupCollect, List.mem_cons]
      constructor
      · rintro ((h | ⟨h1, h2⟩) | ⟨h1, k', hk', h2⟩)
        · exact Or.inl h
        · exact Or.inr ⟨h1, k, Or.inl rfl, h2⟩
        · exact Or.inr ⟨h1, k', Or.inr hk', h2⟩
      · rintro (h | ⟨h1, k', hk' | hk', h2⟩)
        · exact Or.inl (Or.inl h)
        · subst hk'; exact Or.inl (Or.inr ⟨h1, h2⟩)
        · exact Or.inr ⟨h1, k', hk', h2⟩

theorem nodup_dedupFold (lid : String) (ks : List String)
    (bufs : String → List Event) (acc : List Event) (h : acc.Nodup) :
    (ks.foldl (fun acc k => dedupCollect lid acc (bufs k)) acc).Nodup := by
  induction ks generalizing acc with
  | nil => exact h
  | cons k ks ih => exact ih _ (nodup_dedupCollect lid acc (bufs k) h)

theorem dlookup_touchEvKey (a : Axis) (k k' : String) :
    dlookup (touchEvKey a k).evKeys (touchEvKey a k).evs k'
      = dlookup a.evKeys a.evs k' := by
  unfold touchEvKey dlookup dinsert
  by_cases h : k ∈ a.evKeys
  · simp [h]
  · by_cases h2 : k' = k
    · subst h2
      simp [h, Function.update]
    · simp only [if_neg h]
      have hmem : (k' ∈ a.evKeys ++ [k]) ↔ k' ∈ a.evKeys := by
        simp [h2]
      simp only [hmem]
      split
      · simp [Function.update, h2]
      · rfl

theorem axisCollect_snd (lid : String) (ks : List String) (a : Axis)
    (acc : List Event) :
    (axisCollect lid a ks acc).2
      = ks.foldl (fun acc k => dedupCollect lid acc (dlookup a.evKeys a.evs k)) acc := by
  induction ks generalizing a acc with
  | nil => rfl
  | cons k ks ih =>
      have hstep : axisCollect lid a (k :: ks) acc
          = axisCollect lid (touchEvKey a k)
              ks (dedupCollect lid acc (dlookup a.evKeys a.evs k)) := rfl
      rw [hstep, ih]
      simp only [List.foldl_cons, dlookup_touchEvKey]

theorem collectPart_mem (lid : String) (ob : Option (List String)) (a : Axis)
    (acc : List Event) (e : Event) :
    e ∈ (if optListTruthy ob then (axisCollect lid a (ob.getD []) acc).2 else acc) ↔
      e ∈ acc ∨ (pyStrLt lid e.id = true ∧
        ∃ k ∈ ob.getD [], e ∈ dlookup a.evKeys a.evs k) := by
  by_cases h : optListTruthy ob
  · rw [if_pos h, axisCollect_snd, mem_dedupFold]
  · rw [if_neg h]
    have hnil : ob.getD [] = [] := by
      cases ob with
      | none => rfl
      | some l =>
          cases l with
          | nil => rfl
          | cons x xs => exact absurd (by simp [optListTruthy]) h
    simp [hnil]

theorem collectPart_nodup (lid : String) (ob : Option (List String)) (a : Axis)
    (acc : List Event) (h : acc.Nodup) :
    (if optListTruthy ob then (axisCollect lid a (ob.getD []) acc).2 else acc).Nodup := by
  by_cases hc : optListTruthy ob
  · rw [if_pos hc, axisCollect_snd]
    exact nodup_dedupFold lid _ _ acc h
  · rwa [if_neg hc]

theorem getMissedEvents_fst (s : LPState) (uid lid : String)
    (channels servers : Option (List String)) (h : lid ≠ "") :
    (getMissedEvents s uid (some lid) channels servers).1 =
      sortByTimestamp
        (if optListTruthy servers then
           (axisCollect lid s.serv (servers.getD [])
             (if optListTruthy channels then
                (axisCollect lid s.chan (channels.getD [])
                  (userCollect lid (dlookup s.user.evKeys s.user.evs uid))).2
              else userCollect lid (dlookup s.user.evKeys s.user.evs uid))).2
         else
           (if optListTruthy channels then
              (axisCollect lid s.chan (channels.getD [])
                (userCollect lid (dlookup s.user.evKeys s.user.evs uid))).2
            else userCollect lid (dlookup s.user.evKeys s.user.evs uid))) := by
  have htru : optTruthy (some lid) = true := by
    simp [optTruthy, h]
  unfold getMissedEvents
  rw [htru]
  by_cases hc : optListTruthy channels <;> by_cases hs : optListTruthy servers <;>
    simp [hc, hs]

/-- Claim C1 (amended): for every state and every truthy cursor, the replay
result of `wait_for_events` contains exactly the buffered events whose id is
lexicographically above the cursor and that lie in the caller's user buffer
or a requested channel or server buffer; each such event appears exactly
once (given the user buffer itself holds no duplicates); and the list is
sorted ascending by wall-clock `timestamp` — not by id, which is what
`_get_missed_events` actually sorts by. -/
theorem claim_C1 (s : LPState) (uid lid : String)
    (channels servers : Option (List String)) (h : lid ≠ "")
    (hnod : (dlookup s.user.evKeys s.user.evs uid).Nodup) :
    (∀ e : Event,
       e ∈ (getMissedEvents s uid (some lid) channels servers).1 ↔
         (pyStrLt lid e.id = true ∧
           (e ∈ dlookup s.user.evKeys s.user.evs uid ∨
            (∃ k ∈ channels.getD [], e ∈ dlookup s.chan.evKeys s.chan.evs k) ∨
            (∃ k ∈ servers.getD [], e ∈ dlookup s.serv.evKeys s.serv.evs k)))) ∧
    (getMissedEvents s uid (some lid) channels servers).1.Nodup ∧
    (getMissedEvents s uid (some lid) channels servers).1.Pairwise
      (fun a b => a.timestamp ≤ b.timestamp) := by
  rw [getMissedEvents_fst s uid lid channels servers h]
  refine ⟨?_, ?_, ?_⟩
  · intro e
    rw [mem_sortByTimestamp, collectPart_mem, collectPart_mem,
        userCollect_eq_filter, List.mem_filter]
    constructor
    · rintro ((⟨hm, hlt⟩ | ⟨hlt, hch⟩) | ⟨hlt, hsv⟩)
      · exact ⟨hlt, Or.inl hm⟩
      · exact ⟨hlt, Or.inr (Or.inl hch)⟩
      · exact ⟨hlt, Or.inr (Or.inr hsv)⟩
    · rintro ⟨hlt, hm | hch | hsv⟩
      · exact Or.inl (Or.inl ⟨hm, hlt⟩)
      · exact Or.inl (Or.inr ⟨hlt, hch⟩)
      · exact Or.inr ⟨hlt, hsv⟩
  · refine nodup_sortByTimestamp _ ?_
    refine collectPart_nodup _ _ _ _ ?_
    refine collectPart_nodup _ _ _ _ ?_
    rw [userCollect_eq_filter]
    exact hnod.filter _
  · exact pairwise_sortByTimestamp _

/-- Claim C1, witness: the amended characterisation applied to the concrete
two-event state `sBA` with cursor `"0"` and channel filter `[c1]`. -/
theorem claim_C1_witness :
    (∀ e : Event,
       e ∈ (getMissedEvents sBA "u" (some "0") (some ["c1"]) none).1 ↔
         (pyStrLt "0" e.id = true ∧
           (e ∈ dlookup sBA.user.evKeys sBA.user.evs "u" ∨
            (∃ k ∈ (some ["c1"] : Option (List String)).getD [],
               e ∈ dlookup sBA.chan.evKeys sBA.chan.evs k) ∨
            (∃ k ∈ (none : Option (List String)).getD [],
               e ∈ dlookup sBA.serv.evKeys sBA.serv.evs k)))) ∧
    (getMissedEvents sBA "u" (some "0") (some ["c1"]) none).1.Nodup ∧
    (getMissedEvents sBA "u" (some "0") (some ["c1"]) none).1.Pairwise
      (fun a b => a.timestamp ≤ b.timestamp) :=
  claim_C1 sBA "u" "0" (some ["c1"]) none (by decide) (by decide)

theorem dequeAppend_length_le (buf : List Event) (e : Event) :
    (dequeAppend 100 buf e).length ≤ 100 := by
  unfold dequeAppend
  simp only [List.length_drop, List.length_append, List.length_singleton]
  omega

theorem publishAxis_fst_evs (a : Axis) (fs : Futures) (key : Option String)
    (e : Event) :
    ((publishAxis a fs key e).1).evs =
      if optTruthy key then
        Function.update a.evs (key.getD "")
          (dequeAppend 100 (dlookup a.evKeys a.evs (key.getD "")) e)
      else a.evs := by
  by_cases h : optTruthy key
  · simp [publishAxis, h]
  · simp [publishAxis, h]

theorem publishAxis_evs_len (a : Axis) (fs : Futures) (key : Option String)
    (e : Event) (k : String) (h : (a.evs k).length ≤ 100) :
    (((publishAxis a fs key e).1).evs k).length ≤ 100 := by
  rw [publishAxis_fst_evs]
  by_cases ht : optTruthy key
  · rw [if_pos ht]
    by_cases hk : k = key.getD ""
    · subst hk
      rw [Function.update_same]
      exact dequeAppend_length_le _ _
    · rw [Function.update_noteq hk]
      exact h
  · rw [if_neg ht]
    exact h

theorem addEvent_user (s : LPState) (e : Event) :
    (addEvent s e).user = (publishAxis s.user s.fs e.user_id e).1 := rfl

theorem addEvent_chan (s : LPState) (e : Event) :
    (addEvent s e).chan
      = (publishAxis s.chan (publishAxis s.user s.fs e.user_id e).2
          e.channel_id e).1 := rfl

theorem addEvent_serv (s : LPState) (e : Event) :
    (addEvent s e).serv
      = (publishAxis s.serv
          (publishAxis s.chan (publishAxis s.user s.fs e.user_id e).2
            e.channel_id e).2 e.server_id e).1 := rfl

/-- Claim C7 (confirmed): every replay deque has capacity 100
(`deque(maxlen=100)`): each publish leaves every buffer at or below 100
entries, and in the concrete scenario publishing 101 events to channel `c1`
leaves exactly the 100 most recent retrievable — in the buffer and via the
replay query — with the oldest event gone. -/
theorem claim_C7 :
    (∀ (s : LPState) (e : Event) (k : String),
       ((s.user.evs k).length ≤ 100 → ((addEvent s e).user.evs k).length ≤ 100) ∧
       ((s.chan.evs k).length ≤ 100 → ((addEvent s e).chan.evs k).length ≤ 100) ∧
       ((s.serv.evs k).length ≤ 100 → ((addEvent s e).serv.evs k).length ≤ 100)) ∧
    pubList.length = 101 ∧
    s101.chan.evs "c1" = pubList.drop 1 ∧
    (s101.chan.evs "c1").length = 100 ∧
    (getMissedEvents s101 "u" (some "0") (some ["c1"]) none).1 = pubList.drop 1 ∧
    mkEv 0 ∉ (getMissedEvents s101 "u" (some "0") (some ["c1"]) none).1 := by
  have ha : s101.chan.evs "c1" = pubList.drop 1 := by decide
  have hr : (getMissedEvents s101 "u" (some "0") (some ["c1"]) none).1
      = pubList.drop 1 := by decide
  refine ⟨?_, by decide, ha, ?_, hr, ?_⟩
  · intro s e k
    refine ⟨?_, ?_, ?_⟩
    · intro h
      rw [addEvent_user]
      exact publishAxis_evs_len _ _ _ _ _ h
    · intro h
      rw [addEvent_chan]
      exact publishAxis_evs_len _ _ _ _ _ h
    · intro h
      rw [addEvent_serv]
      exact publishAxis_evs_len _ _ _ _ _ h
  · rw [ha]
    decide
  · rw [hr]
    decide

/-- Claim C7, witness: the capacity-preservation part applied at the empty
manager and a concrete publish. -/
theorem claim_C7_witness :
    ((addEvent emptyLP eRace).chan.evs "c1").length ≤ 100 :=
  (claim_C7.1 emptyLP eRace "c1").2.1 (by decide)

theorem mem_dinsert_self (keys : List String) (k : String) : k ∈ dinsert keys k := by
  unfold dinsert
  by_cases h : k ∈ keys
  · simp [h]
  · simp [h]

theorem mem_sadd_self (l : List Nat) (f : Nat) : f ∈ sadd l f := by
  unfold sadd
  by_cases h : f ∈ l
  · simp [h]
  · simp [h]

theorem dlookup_connAdd_self (a : Axis) (k : String) (f : Nat) :
    dlookup (connAdd a k f).connKeys (connAdd a k f).conns k
      = sadd (dlookup a.connKeys a.conns k) f := by
  show dlookup (dinsert a.connKeys k)
      (Function.update a.conns k (sadd (dlookup a.connKeys a.conns k) f)) k = _
  unfold dlookup
  rw [if_pos (mem_dinsert_self _ _), Function.update_same]

theorem registerPhase_user_mem (s : LPState) (uid : String)
    (channels servers : Option (List String)) (f : Nat) :
    f ∈ dlookup (registerPhase s uid channels servers f).user.connKeys
          (registerPhase s uid channels servers f).user.conns uid := by
  show f ∈ dlookup (connAdd s.user uid f).connKeys (connAdd s.user uid f).conns uid
  rw [dlookup_connAdd_self]
  exact mem_sadd_self _ _

theorem registerPhase_fs (s : LPState) (uid : String)
    (channels servers : Option (List String)) (f : Nat) :
    (registerPhase s uid channels servers f).fs = s.fs := rfl

/-- Claim C10 (confirmed): every `wait_for_events` call includes the
caller's own user key regardless of the `channels`/`servers` arguments: the
replay check always returns the matching events of the caller's user buffer,
a suspending call always registers the waiter under `user:<user_id>` as
well, and consequently a publish addressed to that user resolves a waiter
that only asked for channels or servers. -/
theorem claim_C10 :
    (∀ (s : LPState) (uid lid : String) (channels servers : Option (List String))
       (e : Event),
       lid ≠ "" → pyStrLt lid e.id = true →
       e ∈ dlookup s.user.evKeys s.user.evs uid →
       e ∈ (getMissedEvents s uid (some lid) channels servers).1) ∧
    (∀ (s : LPState) (uid : String) (channels servers : Option (List String))
       (f : Nat),
       f ∈ dlookup (registerPhase s uid channels servers f).user.connKeys
             (registerPhase s uid channels servers f).user.conns uid) ∧
    (∀ (s : LPState) (uid : String) (channels servers : Option (List String))
       (f : Nat) (e : Event),
       s.fs.st f = FutState.pending → e.user_id = some uid → uid ≠ "" →
       (addEvent (registerPhase s uid channels servers f) e).fs.st f
         = .resolved [e]) := by
  refine ⟨?_, ?_, ?_⟩
  · intro s uid lid channels servers e hlid hlt hmem
    rw [getMissedEvents_fst s uid lid channels servers hlid,
        mem_sortByTimestamp, collectPart_mem, collectPart_mem,
        userCollect_eq_filter]
    exact Or.inl (Or.inl (List.mem_filter.mpr ⟨hmem, hlt⟩))
  · intro s uid channels servers f
    exact registerPhase_user_mem s uid channels servers f
  · intro s uid channels servers f e hp hu hu0
    have hmem := registerPhase_user_mem s uid channels servers f
    have htru : optTruthy e.user_id = true := by
      rw [hu]
      simp [optTruthy, hu0]
    have h1 : ((publishAxis (registerPhase s uid channels servers f).user
        (registerPhase s uid channels servers f).fs e.user_id e).2).st f
        = .resolved [e] := by
      rw [publishAxis_st, hu]
      rw [hu] at htru
      rw [registerPhase_fs]
      simp only [htru, true_and, Option.getD_some]
      rw [if_pos ⟨hmem, hp⟩]
    have hnp : ((publishAxis (registerPhase s uid channels servers f).user
        (registerPhase s uid channels servers f).fs e.user_id e).2).st f
        ≠ FutState.pending := by
      rw [h1]
      intro hcon
      cases hcon
    have hnp2 : ((publishAxis (registerPhase s uid channels servers f).chan
        (publishAxis (registerPhase s uid channels servers f).user
          (registerPhase s uid channels servers f).fs e.user_id e).2
        e.channel_id e).2).st f ≠ FutState.pending := by
      rw [publishAxis_st_stable _ _ _ _ _ hnp]
      exact hnp
    rw [addEvent_fs, publishAxis_st_stable _ _ _ _ _ hnp2,
        publishAxis_st_stable _ _ _ _ _ hnp, h1]

/-- Claim C10, witness: the three parts at concrete inputs: the user event
of `emit_user_status_changed_lp` shape is replayed for a channels-only
filter, registration under the user key happens for a channels-only call,
and the user-addressed publish resolves the waiter of `sWait` although it
asked only for channel `c1`. -/
theorem claim_C10_witness :
    eBoth ∈ (getMissedEvents (addEvent emptyLP eBoth)
        "u1" (some "0") (some ["c9"]) none).1 ∧
    (7 ∈ dlookup sWait.user.connKeys sWait.user.conns "u1") ∧
    ((addEvent sWait eBoth).fs.st 7 = .resolved [eBoth]) := by
  refine ⟨?_, ?_, ?_⟩
  · exact claim_C10.1 (addEvent emptyLP eBoth) "u1" "0" (some ["c9"]) none eBoth
      (by decide) (by decide) (by decide)
  · exact claim_C10.2.1 emptyLP "u1" (some ["c1"]) none 7
  · exact claim_C10.2.2 emptyLP "u1" (some ["c1"]) none 7 eBoth rfl rfl (by decide)

theorem sadd_idem (l : List Nat) (f : Nat) : sadd (sadd l f) f = sadd l f := by
  unfold sadd
  by_cases h : f ∈ l
  · simp [h]
  · simp [h]

theorem filter_ne_idem (l : List Nat) (f : Nat) :
    (l.filter (fun g => g ≠ f)).filter (fun g => g ≠ f)
      = l.filter (fun g => g ≠ f) := by
  rw [List.filter_filter]
  simp

theorem dlookup_connAdd (a : Axis) (k : String) (f : Nat) (k' : String) :
    dlookup (connAdd a k f).connKeys (connAdd a k f).conns k'
      = if k' = k then sadd (dlookup a.connKeys a.conns k) f
        else dlookup a.connKeys a.conns k' := by
  by_cases hk : k' = k
  · subst hk
    rw [if_pos rfl]
    exact dlookup_connAdd_self a k' f
  · rw [if_neg hk]
    show dlookup (dinsert a.connKeys k) (Function.update a.conns k _) k' = _
    unfold dlookup dinsert
    rw [Function.update_noteq hk]
    by_cases hmem : k ∈ a.connKeys
    · rw [if_pos hmem]
    · have : (k' ∈ a.connKeys ++ [k]) ↔ k' ∈ a.connKeys := by simp [hk]
      rw [if_neg hmem]
      simp only [this]

theorem dlookup_connDiscard (a : Axis) (k : String) (f : Nat) (k' : String) :
    dlookup (connDiscard a k f).connKeys (connDiscard a k f).conns k'
      = if k' = k then (dlookup a.connKeys a.conns k).filter (fun g => g ≠ f)
        else dlookup a.connKeys a.conns k' := by
  by_cases hk : k' = k
  · subst hk
    rw [if_pos rfl]
    show dlookup (dinsert a.connKeys k')
        (Function.update a.conns k' ((dlookup a.connKeys a.conns k').filter _)) k' = _
    unfold dlookup
    rw [if_pos (mem_dinsert_self _ _), Function.update_same]
  · rw [if_neg hk]
    show dlookup (dinsert a.connKeys k) (Function.update a.conns k _) k' = _
    unfold dlookup dinsert
    rw [Function.update_noteq hk]
    by_cases hmem : k ∈ a.connKeys
    · rw [if_pos hmem]
    · have : (k' ∈ a.connKeys ++ [k]) ↔ k' ∈ a.connKeys := by simp [hk]
      rw [if_neg hmem]
      simp only [this]

theorem dlookup_foldAdd (S : List String) (a : Axis) (f : Nat) (k' : String) :
    dlookup (S.foldl (fun a k => connAdd a k f) a).connKeys
        (S.foldl (fun a k => connAdd a k f) a).conns k'
      = if k' ∈ S then sadd (dlookup a.connKeys a.conns k') f
        else dlookup a.connKeys a.conns k' := by
  induction S generalizing a with
  | nil => simp
  | cons k S ih =>
      rw [List.foldl_cons, ih]
      by_cases hS : k' ∈ S
      · rw [if_pos hS, if_pos (List.mem_cons_of_mem k hS), dlookup_connAdd]
        by_cases hk : k' = k
        · rw [if_pos hk]
          subst hk
          exact sadd_idem _ _
        · rw [if_neg hk]
      · rw [if_neg hS, dlookup_connAdd]
        by_cases hk : k' = k
        · subst hk
          rw [if_pos rfl, if_pos (List.mem_cons_self _ _)]
        · rw [if_neg hk, if_neg (by simp [hk, hS])]

theorem dlookup_foldDiscard (S : List String) (a : Axis) (f : Nat)
    (k' : String) :
    dlookup (S.foldl (fun a k => connDiscard a k f) a).connKeys
        (S.foldl (fun a k => connDiscard a k f) a).conns k'
      = if k' ∈ S then (dlookup a.connKeys a.conns k').filter (fun g => g ≠ f)
        else dlookup a.connKeys a.conns k' := by
  induction S generalizing a with
  | nil => simp
  | cons k S ih =>
      rw [List.foldl_cons, ih]
      by_cases hS : k' ∈ S
      · rw [if_pos hS, if_pos (List.mem_cons_of_mem k hS), dlookup_connDiscard]
        by_cases hk : k' = k
        · rw [if_pos hk]
          subst hk
          exact filter_ne_idem _ _
        · rw [if_neg hk]
      · rw [if_neg hS, dlookup_connDiscard]
        by_cases hk : k' = k
        · subst hk
          rw [if_pos rfl, if_pos (List.mem_cons_self _ _)]
        · rw [if_neg hk, if_neg (by simp [hk, hS])]

theorem dlookup_publishAxis_fst (a : Axis) (fs : Futures) (key : Option String)
    (e : Event) (k' : String) :
    dlookup ((publishAxis a fs key e).1).connKeys
        ((publishAxis a fs key e).1).conns k'
      = if optTruthy key ∧ k' = key.getD "" then
          (dlookup a.connKeys a.conns k').filter
            (fun g => fs.st g ≠ FutState.pending)
        else dlookup a.connKeys a.conns k' := by
  by_cases ht : optTruthy key
  · have hpub : (publishAxis a fs key e).1 =
        { evKeys := dinsert a.evKeys (key.getD ""),
          evs := Function.update a.evs (key.getD "")
            (dequeAppend 100 (dlookup a.evKeys a.evs (key.getD "")) e),
          connKeys := dinsert a.connKeys (key.getD ""),
          conns := Function.update a.conns (key.getD "")
            ((dlookup a.connKeys a.conns (key.getD "")).filter
              (fun g => fs.st g ≠ FutState.pending)) } := by
      simp [publishAxis, ht, notifyConnections]
    rw [hpub]
    by_cases hk : k' = key.getD ""
    · subst hk
      rw [if_pos ⟨ht, rfl⟩]
      show dlookup (dinsert a.connKeys (key.getD ""))
          (Function.update a.conns (key.getD "") _) (key.getD "") = _
      unfold dlookup
      rw [if_pos (mem_dinsert_self _ _), Function.update_same]
    · rw [if_neg (by intro h; exact hk h.2)]
      show dlookup (dinsert a.connKeys (key.getD ""))
          (Function.update a.conns (key.getD "") _) k' = _
      unfold dlookup dinsert
      rw [Function.update_noteq hk]
      by_cases hmem : key.getD "" ∈ a.connKeys
      · rw [if_pos hmem]
      · have : (k' ∈ a.connKeys ++ [key.getD ""]) ↔ k' ∈ a.connKeys := by
          simp [hk]
        rw [if_neg hmem]
        simp only [this]
  · have : (publishAxis a fs key e).1 = a := by
      simp [publishAxis, ht]
    rw [this, if_neg (by intro h; exact ht h.1)]

theorem sadd_not_mem (l : List Nat) (f : Nat) (h : f ∉ l) :
    sadd l f = l ++ [f] := by
  simp [sadd, h]

theorem filter_ne_of_not_mem (l : List Nat) (f : Nat) (h : f ∉ l) :
    l.filter (fun g => g ≠ f) = l := by
  rw [List.filter_eq_self]
  intro g hg
  rw [decide_eq_true_eq]
  intro hgf
  subst hgf
  exact h hg

theorem filter_done (l : List Nat) (f : Nat) (fsN : Futures)
    (hdone : ∀ g ∈ l, g ≠ f → fsN.st g ≠ FutState.pending) (hf : f ∉ l) :
    l.filter (fun g => fsN.st g ≠ FutState.pending) = l := by
  rw [List.filter_eq_self]
  intro g hg
  rw [decide_eq_true_eq]
  exact hdone g hg (fun hgf => hf (hgf ▸ hg))

theorem axisRound_dlookup (a : Axis) (S : List String) (f : Nat)
    (pk : Option String) (e : Event) (fsN : Futures)
    (hf : ∀ k, f ∉ dlookup a.connKeys a.conns k)
    (hdone : ∀ k g, g ∈ dlookup a.connKeys a.conns k → g ≠ f →
        fsN.st g ≠ FutState.pending) (k : String) :
    dlookup (axisRound a S f pk e fsN).connKeys
        (axisRound a S f pk e fsN).conns k
      = dlookup a.connKeys a.conns k := by
  unfold axisRound
  rw [dlookup_foldDiscard, dlookup_publishAxis_fst, dlookup_foldAdd]
  have hsing : ([f].filter (fun g => fsN.st g ≠ FutState.pending)).filter
      (fun g => g ≠ f) = [] := by
    by_cases hp : fsN.st f ≠ FutState.pending
    · simp [hp]
    · simp [hp]
  have hfone : [f].filter (fun g => g ≠ f) = ([] : List Nat) := by simp
  by_cases h1 : k ∈ S
  · by_cases h2 : optTruthy pk ∧ k = pk.getD ""
    · rw [if_pos h1, if_pos h2, if_pos h1, sadd_not_mem _ _ (hf k),
          List.filter_append, filter_done _ f fsN (hdone k) (hf k),
          List.filter_append, filter_ne_of_not_mem _ _ (hf k), hsing,
          List.append_nil]
    · rw [if_pos h1, if_neg h2, if_pos h1, sadd_not_mem _ _ (hf k),
          List.filter_append, filter_ne_of_not_mem _ _ (hf k), hfone,
          List.append_nil]
  · by_cases h2 : optTruthy pk ∧ k = pk.getD ""
    · rw [if_neg h1, if_pos h2, if_neg h1,
          filter_done _ f fsN (hdone k) (hf k)]
    · rw [if_neg h1, if_neg h2, if_neg h1]

theorem dinsert_ext (keys : List String) (k : String) :
    ∃ ext, dinsert keys k = keys ++ ext ∧ ∀ x ∈ ext, x ∉ keys := by
  by_cases h : k ∈ keys
  · exact ⟨[], by simp [dinsert, h], by simp⟩
  · refine ⟨[k], by simp [dinsert, h], ?_⟩
    intro x hx
    have hxk : x = k := List.mem_singleton.mp hx
    subst hxk
    exact h

theorem ext_trans {keys1 keys2 keys3 : List String}
    (h1 : ∃ ext, keys2 = keys1 ++ ext ∧ ∀ x ∈ ext, x ∉ keys1)
    (h2 : ∃ ext, keys3 = keys2 ++ ext ∧ ∀ x ∈ ext, x ∉ keys2) :
    ∃ ext, keys3 = keys1 ++ ext ∧ ∀ x ∈ ext, x ∉ keys1 := by
  obtain ⟨e1, rfl, hf1⟩ := h1
  obtain ⟨e2, rfl, hf2⟩ := h2
  refine ⟨e1 ++ e2, by simp, ?_⟩
  intro x hx
  rcases List.mem_append.mp hx with hx | hx
  · exact hf1 x hx
  · intro hk
    exact hf2 x hx (List.mem_append.mpr (Or.inl hk))

theorem ext_refl (keys : List String) :
    ∃ ext, keys = keys ++ ext ∧ ∀ x ∈ ext, x ∉ keys :=
  ⟨[], by simp, by simp⟩

theorem foldl_dinsert_ext (S : List String) (keys : List String) :
    ∃ ext, S.foldl dinsert keys = keys ++ ext ∧ ∀ x ∈ ext, x ∉ keys := by
  induction S generalizing keys with
  | nil => exact ext_refl keys
  | cons k S ih =>
      rw [List.foldl_cons]
      exact ext_trans (dinsert_ext keys k) (ih (dinsert keys k))

theorem foldAdd_connKeys (S : List String) (a : Axis) (f : Nat) :
    (S.foldl (fun a k => connAdd a k f) a).connKeys
      = S.foldl dinsert a.connKeys := by
  induction S generalizing a with
  | nil => rfl
  | cons k S ih => rw [List.foldl_cons, List.foldl_cons, ih]; rfl

theorem foldDiscard_connKeys (S : List String) (a : Axis) (f : Nat) :
    (S.foldl (fun a k => connDiscard a k f) a).connKeys
      = S.foldl dinsert a.connKeys := by
  induction S generalizing a with
  | nil => rfl
  | cons k S ih => rw [List.foldl_cons, List.foldl_cons, ih]; rfl

theorem publishAxis_fst_connKeys (a : Axis) (fs : Futures)
    (key : Option String) (e : Event) :
    ((publishAxis a fs key e).1).connKeys
      = if optTruthy key then dinsert a.connKeys (key.getD "")
        else a.connKeys := by
  by_cases h : optTruthy key
  · simp [publishAxis, h]
  · simp [publishAxis, h]

theorem axisRound_connKeys_ext (a : Axis) (S : List String) (f : Nat)
    (pk : Option String) (e : Event) (fsN : Futures) :
    ∃ ext, (axisRound a S f pk e fsN).connKeys = a.connKeys ++ ext ∧
      ∀ x ∈ ext, x ∉ a.connKeys := by
  unfold axisRound
  rw [foldDiscard_connKeys, publishAxis_fst_connKeys, foldAdd_connKeys]
  have h12 : ∃ ext,
      (if optTruthy pk then dinsert (S.foldl dinsert a.connKeys) (pk.getD "")
       else S.foldl dinsert a.connKeys)
        = (S.foldl dinsert a.connKeys) ++ ext ∧
      ∀ x ∈ ext, x ∉ S.foldl dinsert a.connKeys := by
    by_cases h : optTruthy pk
    · rw [if_pos h]
      exact dinsert_ext _ _
    · rw [if_neg h]
      exact ext_refl _
  exact ext_trans (ext_trans (foldl_dinsert_ext S a.connKeys) h12)
    (foldl_dinsert_ext S _)

theorem statsCount_restore (keys keys' : List String)
    (vals vals' : String → List Nat)
    (hext : ∃ ext, keys' = keys ++ ext ∧ ∀ x ∈ ext, x ∉ keys)
    (hdl : ∀ k, dlookup keys' vals' k = dlookup keys vals k) :
    statsCount keys' vals' = statsCount keys vals := by
  obtain ⟨ext, rfl, hfr⟩ := hext
  unfold statsCount
  rw [List.map_append, List.sum_append]
  have h1 : keys.map (fun k => (vals' k).length)
      = keys.map (fun k => (vals k).length) := by
    refine List.map_congr_left ?_
    intro k hk
    have hd := hdl k
    rw [dlookup, if_pos (List.mem_append.mpr (Or.inl hk)), dlookup,
        if_pos hk] at hd
    rw [hd]
  have h2 : (ext.map (fun k => (vals' k).length)).sum = 0 := by
    rw [List.sum_eq_zero]
    intro x hx
    rcases List.mem_map.mp hx with ⟨k, hk, rfl⟩
    have hd := hdl k
    rw [dlookup, if_pos (List.mem_append.mpr (Or.inr hk)), dlookup,
        if_neg (hfr k hk)] at hd
    rw [hd]
    rfl
  rw [h1, h2, Nat.add_zero]

theorem publishAxis_none (a : Axis) (fs : Futures) (e : Event) :
    publishAxis a fs none e = (a, fs) := rfl

theorem axisRound_none (a : Axis) (S : List String) (f : Nat) (e : Event)
    (fsN : Futures) :
    axisRound a S f none e fsN
      = S.foldl (fun a k => connDiscard a k f)
          (S.foldl (fun a k => connAdd a k f) a) := by
  unfold axisRound
  rw [publishAxis_none]

theorem publishAxis_st_done (a : Axis) (fs : Futures) (key : Option String)
    (e : Event) (g : Nat) (h : fs.st g ≠ FutState.pending) :
    ((publishAxis a fs key e).2).st g ≠ FutState.pending := by
  rw [publishAxis_st]
  split
  · intro hcon
    cases hcon
  · exact h

theorem connFold_eq (op : Axis → String → Nat → Axis) (a : Axis)
    (ks : Option (List String)) (f : Nat) :
    connFold op a ks f = (selKeys ks).foldl (fun a k => op a k f) a := by
  unfold connFold selKeys
  by_cases h : optListTruthy ks
  · rw [if_pos h, if_pos h]
  · rw [if_neg h, if_neg h]
    rfl

theorem axisCollect_fst_conn (lid : String) (ks : List String) (a : Axis)
    (acc : List Event) :
    (axisCollect lid a ks acc).1.connKeys = a.connKeys ∧
    (axisCollect lid a ks acc).1.conns = a.conns := by
  induction ks generalizing a acc with
  | nil => exact ⟨rfl, rfl⟩
  | cons k ks ih =>
      have hstep : axisCollect lid a (k :: ks) acc
          = axisCollect lid (touchEvKey a k)
              ks (dedupCollect lid acc (dlookup a.evKeys a.evs k)) := rfl
      rw [hstep]
      exact ih (touchEvKey a k) _

theorem getMissedEvents_snd (s : LPState) (uid : String)
    (lastId : Option String) (channels servers : Option (List String)) :
    (getMissedEvents s uid lastId channels servers).2.user.connKeys
        = s.user.connKeys ∧
    (getMissedEvents s uid lastId channels servers).2.user.conns
        = s.user.conns ∧
    (getMissedEvents s uid lastId channels servers).2.chan.connKeys
        = s.chan.connKeys ∧
    (getMissedEvents s uid lastId channels servers).2.chan.conns
        = s.chan.conns ∧
    (getMissedEvents s uid lastId channels servers).2.serv.connKeys
        = s.serv.connKeys ∧
    (getMissedEvents s uid lastId channels servers).2.serv.conns
        = s.serv.conns ∧
    (getMissedEvents s uid lastId channels servers).2.fs = s.fs := by
  unfold getMissedEvents
  by_cases h : optTruthy lastId
  · simp only [h, Bool.not_true, Bool.false_eq_true, if_false]
    refine ⟨rfl, rfl, ?_, ?_, ?_, ?_, trivial⟩
    · by_cases hc : optListTruthy channels
      · simp only [hc, if_true]
        exact (axisCollect_fst_conn _ _ _ _).1
      · simp only [hc, Bool.false_eq_true, if_false]
    · by_cases hc : optListTruthy channels
      · simp only [hc, if_true]
        exact (axisCollect_fst_conn _ _ _ _).2
      · simp only [hc, Bool.false_eq_true, if_false]
    · by_cases hv : optListTruthy servers
      · simp only [hv, if_true]
        exact (axisCollect_fst_conn _ _ _ _).1
      · simp only [hv, Bool.false_eq_true, if_false]
    · by_cases hv : optListTruthy servers
      · simp only [hv, if_true]
        exact (axisCollect_fst_conn _ _ _ _).2
      · simp only [hv, Bool.false_eq_true, if_false]
  · simp only [h, Bool.not_false, if_true]
    exact ⟨trivial, trivial, trivial, trivial, trivial, trivial, trivial⟩

theorem deregPhase_setCount (s : LPState) (uid : String)
    (channels servers : Option (List String)) (f : Nat) :
    (deregPhase s uid channels servers f).fs.setCount = s.fs.setCount := by
  unfold deregPhase
  split
  · rfl
  · rfl

theorem addEvent_user_resolves (s : LPState) (uid : String) (e : Event)
    (f : Nat) (hp : s.fs.st f = FutState.pending)
    (hmem : f ∈ dlookup s.user.connKeys s.user.conns uid)
    (hu : e.user_id = some uid) (hu0 : uid ≠ "") :
    (addEvent s e).fs.st f = .resolved [e] ∧
    (addEvent s e).fs.setCount f = s.fs.setCount f + 1 := by
  have htru : optTruthy (some uid) = true := by
    simp [optTruthy, hu0]
  have h1 : ((publishAxis s.user s.fs e.user_id e).2).st f = .resolved [e] := by
    rw [publishAxis_st, hu]
    simp only [htru, true_and, Option.getD_some]
    rw [if_pos ⟨hmem, hp⟩]
  have h1c : ((publishAxis s.user s.fs e.user_id e).2).setCount f
      = s.fs.setCount f + 1 := by
    rw [publishAxis_setCount, hu]
    simp only [htru, true_and, Option.getD_some]
    rw [if_pos ⟨hmem, hp⟩]
  have hnp : ((publishAxis s.user s.fs e.user_id e).2).st f
      ≠ FutState.pending := by
    rw [h1]
    intro hcon
    cases hcon
  have hnp2 : ((publishAxis s.chan (publishAxis s.user s.fs e.user_id e).2
      e.channel_id e).2).st f ≠ FutState.pending := by
    rw [publishAxis_st_stable _ _ _ _ _ hnp]
    exact hnp
  constructor
  · rw [addEvent_fs, publishAxis_st_stable _ _ _ _ _ hnp2,
        publishAxis_st_stable _ _ _ _ _ hnp, h1]
  · rw [addEvent_fs, publishAxis_setCount_stable _ _ _ _ _ hnp2,
        publishAxis_setCount_stable _ _ _ _ _ hnp, h1c]

theorem waitForEvents_timeout_eq (s : LPState) (uid : String)
    (lastId : Option String) (channels servers : Option (List String))
    (f : Nat) (hmiss : (getMissedEvents s uid lastId channels servers).1 = []) :
    waitForEvents s uid lastId channels servers f .timeout
      = (some [], deregPhase (registerPhase
          (getMissedEvents s uid lastId channels servers).2
          uid channels servers f) uid channels servers f) := by
  have hx : getMissedEvents s uid lastId channels servers
      = ([], (getMissedEvents s uid lastId channels servers).2) :=
    Prod.ext hmiss rfl
  unfold waitForEvents
  rw [hx]
  simp

theorem waitForEvents_cancel_eq (s : LPState) (uid : String)
    (lastId : Option String) (channels servers : Option (List String))
    (f : Nat) (hmiss : (getMissedEvents s uid lastId channels servers).1 = []) :
    waitForEvents s uid lastId channels servers f .cancel
      = (none, deregPhase (registerPhase
          (getMissedEvents s uid lastId channels servers).2
          uid channels servers f) uid channels servers f) := by
  have hx : getMissedEvents s uid lastId channels servers
      = ([], (getMissedEvents s uid lastId channels servers).2) :=
    Prod.ext hmiss rfl
  unfold waitForEvents
  rw [hx]
  simp

theorem waitForEvents_publish_eq (s : LPState) (uid : String)
    (lastId : Option String) (channels servers : Option (List String))
    (f : Nat) (e : Event)
    (hmiss : (getMissedEvents s uid lastId channels servers).1 = [])
    (hres : (addEvent (registerPhase
        (getMissedEvents s uid lastId channels servers).2
        uid channels servers f) e).fs.st f = .resolved [e]) :
    waitForEvents s uid lastId channels servers f (.publish e)
      = (some [e], deregPhase (addEvent (registerPhase
          (getMissedEvents s uid lastId channels servers).2
          uid channels servers f) e) uid channels servers f) := by
  have hx : getMissedEvents s uid lastId channels servers
      = ([], (getMissedEvents s uid lastId channels servers).2) :=
    Prod.ext hmiss rfl
  unfold waitForEvents
  rw [hx]
  simp only [ne_eq, not_true_eq_false]
  simp [hres]

theorem round_restore (a : Axis) (S : List String) (f : Nat)
    (pk : Option String) (e : Event) (fsN : Futures)
    (hf : ∀ k, f ∉ dlookup a.connKeys a.conns k)
    (hdone : ∀ k g, g ∈ dlookup a.connKeys a.conns k → g ≠ f →
        fsN.st g ≠ FutState.pending) :
    (∀ k, dlookup (axisRound a S f pk e fsN).connKeys
        (axisRound a S f pk e fsN).conns k
        = dlookup a.connKeys a.conns k) ∧
    statsCount (axisRound a S f pk e fsN).connKeys
        (axisRound a S f pk e fsN).conns
      = statsCount a.connKeys a.conns := by
  constructor
  · intro k
    exact axisRound_dlookup a S f pk e fsN hf hdone k
  · exact statsCount_restore _ _ _ _ (axisRound_connKeys_ext a S f pk e fsN)
      (fun k => axisRound_dlookup a S f pk e fsN hf hdone k)

/-- Claim C4 (confirmed): a suspended `wait_for_events` call has exactly one
terminal outcome — resolution by a matching publish, timeout, or caller
cancellation — and in every case the `finally` block deregisters the waiter
from every key it was registered under before the call returns: the
connection registries' contents (as dictionaries) return exactly to their
pre-call baseline and the `get_stats` waiter counts are unchanged.  A
timed-out call returns `[]` as an ordinary result, a cancelled call delivers
no result, and a resolving publish delivers `[event]` with exactly one
`set_result` call on the waiter's future. -/
theorem claim_C4 (s : LPState) (uid : String) (lastId : Option String)
    (channels servers : Option (List String)) (f : Nat) (oc : WaitOutcome)
    (hp : s.fs.st f = FutState.pending)
    (hfresh : ∀ k, f ∉ s.user.conns k ∧ f ∉ s.chan.conns k ∧ f ∉ s.serv.conns k)
    (hdone : ∀ k g,
       (g ∈ s.user.conns k ∨ g ∈ s.chan.conns k ∨ g ∈ s.serv.conns k) →
       g ≠ f → s.fs.st g ≠ FutState.pending)
    (hpub : ∀ e, oc = WaitOutcome.publish e → e.user_id = some uid ∧ uid ≠ "")
    (hmiss : (getMissedEvents s uid lastId channels servers).1 = []) :
    ((oc = WaitOutcome.timeout →
       (waitForEvents s uid lastId channels servers f oc).1 = some []) ∧
     (oc = WaitOutcome.cancel →
       (waitForEvents s uid lastId channels servers f oc).1 = none) ∧
     (∀ e, oc = WaitOutcome.publish e →
       (waitForEvents s uid lastId channels servers f oc).1 = some [e] ∧
       (waitForEvents s uid lastId channels servers f oc).2.fs.setCount f
         = s.fs.setCount f + 1)) ∧
    (∀ k, dlookup (waitForEvents s uid lastId channels servers f oc).2.user.connKeys
        (waitForEvents s uid lastId channels servers f oc).2.user.conns k
        = dlookup s.user.connKeys s.user.conns k) ∧
    (∀ k, dlookup (waitForEvents s uid lastId channels servers f oc).2.chan.connKeys
        (waitForEvents s uid lastId channels servers f oc).2.chan.conns k
        = dlookup s.chan.connKeys s.chan.conns k) ∧
    (∀ k, dlookup (waitForEvents s uid lastId channels servers f oc).2.serv.connKeys
        (waitForEvents s uid lastId channels servers f oc).2.serv.conns k
        = dlookup s.serv.connKeys s.serv.conns k) ∧
    activeConnectionTotals (waitForEvents s uid lastId channels servers f oc).2
      = activeConnectionTotals s := by
  obtain ⟨c1, c2, c3, c4, c5, c6, c7⟩ :=
    getMissedEvents_snd s uid lastId channels servers
  have hfU : ∀ k, f ∉ dlookup s.user.connKeys s.user.conns k := by
    intro k
    unfold dlookup
    split
    · exact (hfresh k).1
    · simp
  have hfC : ∀ k, f ∉ dlookup s.chan.connKeys s.chan.conns k := by
    intro k
    unfold dlookup
    split
    · exact (hfresh k).2.1
    · simp
  have hfV : ∀ k, f ∉ dlookup s.serv.connKeys s.serv.conns k := by
    intro k
    unfold dlookup
    split
    · exact (hfresh k).2.2
    · simp
  have hdU : ∀ k g, g ∈ dlookup s.user.connKeys s.user.conns k → g ≠ f →
      s.fs.st g ≠ FutState.pending := by
    intro k g hg
    unfold dlookup at hg
    split at hg
    · exact hdone k g (Or.inl hg)
    · cases hg
  have hdC : ∀ k g, g ∈ dlookup s.chan.connKeys s.chan.conns k → g ≠ f →
      s.fs.st g ≠ FutState.pending := by
    intro k g hg
    unfold dlookup at hg
    split at hg
    · exact hdone k g (Or.inr (Or.inl hg))
    · cases hg
  have hdV : ∀ k g, g ∈ dlookup s.serv.connKeys s.serv.conns k → g ≠ f →
      s.fs.st g ≠ FutState.pending := by
    intro k g hg
    unfold dlookup at hg
    split at hg
    · exact hdone k g (Or.inr (Or.inr hg))
    · cases hg
  have hfU1 : ∀ k, f ∉ dlookup
      (getMissedEvents s uid lastId channels servers).2.user.connKeys
      (getMissedEvents s uid lastId channels servers).2.user.conns k := by
    intro k
    rw [c1, c2]
    exact hfU k
  have hfC1 : ∀ k, f ∉ dlookup
      (getMissedEvents s uid lastId channels servers).2.chan.connKeys
      (getMissedEvents s uid lastId channels servers).2.chan.conns k := by
    intro k
    rw [c3, c4]
    exact hfC k
  have hfV1 : ∀ k, f ∉ dlookup
      (getMissedEvents s uid lastId channels servers).2.serv.connKeys
      (getMissedEvents s uid lastId channels servers).2.serv.conns k := by
    intro k
    rw [c5, c6]
    exact hfV k
  have hdU1 : ∀ k g, g ∈ dlookup
      (getMissedEvents s uid lastId channels servers).2.user.connKeys
      (getMissedEvents s uid lastId channels servers).2.user.conns k →
      g ≠ f → (getMissedEvents s uid lastId channels servers).2.fs.st g
        ≠ FutState.pending := by
    intro k g hg
    rw [c1, c2] at hg
    rw [c7]
    exact hdU k g hg
  have hdC1 : ∀ k g, g ∈ dlookup
      (getMissedEvents s uid lastId channels servers).2.chan.connKeys
      (getMissedEvents s uid lastId channels servers).2.chan.conns k →
      g ≠ f → (getMissedEvents s uid lastId channels servers).2.fs.st g
        ≠ FutState.pending := by
    intro k g hg
    rw [c3, c4] at hg
    rw [c7]
    exact hdC k g hg
  have hdV1 : ∀ k g, g ∈ dlookup
      (getMissedEvents s uid lastId channels servers).2.serv.connKeys
      (getMissedEvents s uid lastId channels servers).2.serv.conns k →
      g ≠ f → (getMissedEvents s uid lastId channels servers).2.fs.st g
        ≠ FutState.pending := by
    intro k g hg
    rw [c5, c6] at hg
    rw [c7]
    exact hdV k g hg
  cases oc with
  | timeout =>
      rw [waitForEvents_timeout_eq s uid lastId channels servers f hmiss]
      have hU : (deregPhase (registerPhase
          (getMissedEvents s uid lastId channels servers).2
          uid channels servers f) uid channels servers f).user
          = axisRound (getMissedEvents s uid lastId channels servers).2.user
              [uid] f none eBoth
              (getMissedEvents s uid lastId channels servers).2.fs := rfl
      have hC : (deregPhase (registerPhase
          (getMissedEvents s uid lastId channels servers).2
          uid channels servers f) uid channels servers f).chan
          = axisRound (getMissedEvents s uid lastId channels servers).2.chan
              (selKeys channels) f none eBoth
              (getMissedEvents s uid lastId channels servers).2.fs := by
        show connFold connDiscard (connFold connAdd
            (getMissedEvents s uid lastId channels servers).2.chan channels f)
            channels f = _
        rw [connFold_eq, connFold_eq, axisRound_none]
      have hV : (deregPhase (registerPhase
          (getMissedEvents s uid lastId channels servers).2
          uid channels servers f) uid channels servers f).serv
          = axisRound (getMissedEvents s uid lastId channels servers).2.serv
              (selKeys servers) f none eBoth
              (getMissedEvents s uid lastId channels servers).2.fs := by
        show connFold connDiscard (connFold connAdd
            (getMissedEvents s uid lastId channels servers).2.serv servers f)
            servers f = _
        rw [connFold_eq, connFold_eq, axisRound_none]
      have hRU := round_restore _ [uid] f none eBoth _ hfU1 hdU1
      have hRC := round_restore _ (selKeys channels) f none eBoth _ hfC1 hdC1
      have hRV := round_restore _ (selKeys servers) f none eBoth _ hfV1 hdV1
      refine ⟨⟨fun _ => rfl, fun h => WaitOutcome.noConfusion h,
        fun e h => WaitOutcome.noConfusion h⟩, ?_, ?_, ?_, ?_⟩
      · intro k
        rw [hU, hRU.1 k, c1, c2]
      · intro k
        rw [hC, hRC.1 k, c3, c4]
      · intro k
        rw [hV, hRV.1 k, c5, c6]
      · show (statsCount _ _, statsCount _ _, statsCount _ _)
            = (statsCount _ _, statsCount _ _, statsCount _ _)
        rw [hU, hC, hV]
        rw [hRU.2, hRC.2, hRV.2, c1, c2, c3, c4, c5, c6]
  | cancel =>
      rw [waitForEvents_cancel_eq s uid lastId channels servers f hmiss]
      have hU : (deregPhase (registerPhase
          (getMissedEvents s uid lastId channels servers).2
          uid channels servers f) uid channels servers f).user
          = axisRound (getMissedEvents s uid lastId channels servers).2.user
              [uid] f none eBoth
              (getMissedEvents s uid lastId channels servers).2.fs := rfl
      have hC : (deregPhase (registerPhase
          (getMissedEvents s uid lastId channels servers).2
          uid channels servers f) uid channels servers f).chan
          = axisRound (getMissedEvents s uid lastId channels servers).2.chan
              (selKeys channels) f none eBoth
              (getMissedEvents s uid lastId channels servers).2.fs := by
        show connFold connDiscard (connFold connAdd
            (getMissedEvents s uid lastId channels servers).2.chan channels f)
            channels f = _
        rw [connFold_eq, connFold_eq, axisRound_none]
      have hV : (deregPhase (registerPhase
          (getMissedEvents s uid lastId channels servers).2
          uid channels servers f) uid channels servers f).serv
          = axisRound (getMissedEvents s uid lastId channels servers).2.serv
              (selKeys servers) f none eBoth
              (getMissedEvents s uid lastId channels servers).2.fs := by
        show connFold connDiscard (connFold connAdd
            (getMissedEvents s uid lastId channels servers).2.serv servers f)
            servers f = _
        rw [connFold_eq, connFold_eq, axisRound_none]
      have hRU := round_restore _ [uid] f none eBoth _ hfU1 hdU1
      have hRC := round_restore _ (selKeys channels) f none eBoth _ hfC1 hdC1
      have hRV := round_restore _ (selKeys servers) f none eBoth _ hfV1 hdV1
      refine ⟨⟨fun h => WaitOutcome.noConfusion h, fun _ => rfl,
        fun e h => WaitOutcome.noConfusion h⟩, ?_, ?_, ?_, ?_⟩
      · intro k
        rw [hU, hRU.1 k, c1, c2]
      · intro k
        rw [hC, hRC.1 k, c3, c4]
      · intro k
        rw [hV, hRV.1 k, c5, c6]
      · show (statsCount _ _, statsCount _ _, statsCount _ _)
            = (statsCount _ _, statsCount _ _, statsCount _ _)
        rw [hU, hC, hV]
        rw [hRU.2, hRC.2, hRV.2, c1, c2, c3, c4, c5, c6]
  | publish e =>
      obtain ⟨hu, hu0⟩ := hpub e rfl
      have hp2 : (registerPhase (getMissedEvents s uid lastId channels servers).2
          uid channels servers f).fs.st f = FutState.pending := by
        rw [registerPhase_fs, c7]
        exact hp
      have hres := addEvent_user_resolves
        (registerPhase (getMissedEvents s uid lastId channels servers).2
          uid channels servers f) uid e f hp2
        (registerPhase_user_mem _ uid channels servers f) hu hu0
      rw [waitForEvents_publish_eq s uid lastId channels servers f e hmiss hres.1]
      have hU : (deregPhase (addEvent (registerPhase
          (getMissedEvents s uid lastId channels servers).2
          uid channels servers f) e) uid channels servers f).user
          = axisRound (getMissedEvents s uid lastId channels servers).2.user
              [uid] f e.user_id e
              (getMissedEvents s uid lastId channels servers).2.fs := rfl
      have hC : (deregPhase (addEvent (registerPhase
          (getMissedEvents s uid lastId channels servers).2
          uid channels servers f) e) uid channels servers f).chan
          = axisRound (getMissedEvents s uid lastId channels servers).2.chan
              (selKeys channels) f e.channel_id e
              (publishAxis (connAdd
                  (getMissedEvents s uid lastId channels servers).2.user uid f)
                (getMissedEvents s uid lastId channels servers).2.fs
                e.user_id e).2 := by
        show connFold connDiscard ((publishAxis (connFold connAdd
            (getMissedEvents s uid lastId channels servers).2.chan channels f)
            _ e.channel_id e).1) channels f = _
        rw [connFold_eq, connFold_eq]
        rfl
      have hV : (deregPhase (addEvent (registerPhase
          (getMissedEvents s uid lastId channels servers).2
          uid channels servers f) e) uid channels servers f).serv
          = axisRound (getMissedEvents s uid lastId channels servers).2.serv
              (selKeys servers) f e.server_id e
              (publishAxis (connFold connAdd
                  (getMissedEvents s uid lastId channels servers).2.chan
                  channels f)
                (publishAxis (connAdd
                    (getMissedEvents s uid lastId channels servers).2.user uid f)
                  (getMissedEvents s uid lastId channels servers).2.fs
                  e.user_id e).2
                e.channel_id e).2 := by
        show connFold connDiscard ((publishAxis (connFold connAdd
            (getMissedEvents s uid lastId channels servers).2.serv servers f)
            _ e.server_id e).1) servers f = _
        rw [connFold_eq, connFold_eq]
        rfl
      have hdC2 : ∀ k g, g ∈ dlookup
          (getMissedEvents s uid lastId channels servers).2.chan.connKeys
          (getMissedEvents s uid lastId channels servers).2.chan.conns k →
          g ≠ f → ((publishAxis (connAdd
              (getMissedEvents s uid lastId channels servers).2.user uid f)
            (getMissedEvents s uid lastId channels servers).2.fs
            e.user_id e).2).st g ≠ FutState.pending := by
        intro k g hg hgf
        exact publishAxis_st_done _ _ _ _ _ (hdC1 k g hg hgf)
      have hdV2 : ∀ k g, g ∈ dlookup
          (getMissedEvents s uid lastId channels servers).2.serv.connKeys
          (getMissedEvents s uid lastId channels servers).2.serv.conns k →
          g ≠ f → ((publishAxis (connFold connAdd
              (getMissedEvents s uid lastId channels servers).2.chan channels f)
            (publishAxis (connAdd
                (getMissedEvents s uid lastId channels servers).2.user uid f)
              (getMissedEvents s uid lastId channels servers).2.fs
              e.user_id e).2
            e.channel_id e).2).st g ≠ FutState.pending := by
        intro k g hg hgf
        exact publishAxis_st_done _ _ _ _ _
          (publishAxis_st_done _ _ _ _ _ (hdV1 k g hg hgf))
      have hRU := round_restore _ [uid] f e.user_id e _ hfU1 hdU1
      have hRC := round_restore _ (selKeys channels) f e.channel_id e _ hfC1 hdC2
      have hRV := round_restore _ (selKeys servers) f e.server_id e _ hfV1 hdV2
      refine ⟨⟨fun h => WaitOutcome.noConfusion h,
        fun h => WaitOutcome.noConfusion h, ?_⟩, ?_, ?_, ?_, ?_⟩
      · intro e2 he2
        cases he2
        refine ⟨rfl, ?_⟩
        show (deregPhase _ uid channels servers f).fs.setCount f = _
        rw [deregPhase_setCount]
        rw [hres.2, registerPhase_fs, c7]
      · intro k
        rw [hU, hRU.1 k, c1, c2]
      · intro k
        rw [hC, hRC.1 k, c3, c4]
      · intro k
        rw [hV, hRV.1 k, c5, c6]
      · show (statsCount _ _, statsCount _ _, statsCount _ _)
            = (statsCount _ _, statsCount _ _, statsCount _ _)
        rw [hU, hC, hV]
        rw [hRU.2, hRC.2, hRV.2, c1, c2, c3, c4, c5, c6]

/-- Claim C4, witness: the outcome/cleanup theorem applied at the empty
manager with a channels-only call resolved by a user-addressed publish. -/
theorem claim_C4_witness :
    ((WaitOutcome.publish eBoth = WaitOutcome.timeout →
       (waitForEvents emptyLP "u1" none (some ["c1"]) none 5
         (.publish eBoth)).1 = some []) ∧
     (WaitOutcome.publish eBoth = WaitOutcome.cancel →
       (waitForEvents emptyLP "u1" none (some ["c1"]) none 5
         (.publish eBoth)).1 = none) ∧
     (∀ e, WaitOutcome.publish eBoth = WaitOutcome.publish e →
       (waitForEvents emptyLP "u1" none (some ["c1"]) none 5
         (.publish eBoth)).1 = some [e] ∧
       (waitForEvents emptyLP "u1" none (some ["c1"]) none 5
         (.publish eBoth)).2.fs.setCount 5
         = emptyLP.fs.setCount 5 + 1)) ∧
    (∀ k, dlookup (waitForEvents emptyLP "u1" none (some ["c1"]) none 5
        (.publish eBoth)).2.user.connKeys
        (waitForEvents emptyLP "u1" none (some ["c1"]) none 5
          (.publish eBoth)).2.user.conns k
        = dlookup emptyLP.user.connKeys emptyLP.user.conns k) ∧
    (∀ k, dlookup (waitForEvents emptyLP "u1" none (some ["c1"]) none 5
        (.publish eBoth)).2.chan.connKeys
        (waitForEvents emptyLP "u1" none (some ["c1"]) none 5
          (.publish eBoth)).2.chan.conns k
        = dlookup emptyLP.chan.connKeys emptyLP.chan.conns k) ∧
    (∀ k, dlookup (waitForEvents emptyLP "u1" none (some ["c1"]) none 5
        (.publish eBoth)).2.serv.connKeys
        (waitForEvents emptyLP "u1" none (some ["c1"]) none 5
          (.publish eBoth)).2.serv.conns k
        = dlookup emptyLP.serv.connKeys emptyLP.serv.conns k) ∧
    activeConnectionTotals (waitForEvents emptyLP "u1" none (some ["c1"]) none 5
        (.publish eBoth)).2
      = activeConnectionTotals emptyLP :=
  claim_C4 emptyLP "u1" none (some ["c1"]) none 5 (.publish eBoth) rfl
    (fun _ => ⟨List.not_mem_nil 5, List.not_mem_nil 5, List.not_mem_nil 5⟩)
    (fun k g hg _ => by rcases hg with h | h | h <;> cases h)
    (fun e he => by cases he; exact ⟨rfl, by decide⟩)
    rfl

end Chat2
